import Mathlib

set_option linter.unusedVariables false

/-!
Shallow embedding of the `GreenHydrogenCredit` Solidity contract
(`contracts/GreenHydrogenCredit.sol`) and proofs about its specification.

Addresses and `uint256` values are modelled as `Nat` (the contract never
performs arithmetic that can overflow a 256-bit word in the scenarios the
claims quantify over: counters only increment and sums of amounts are the
only additions; they are modelled as unbounded naturals, matching the
source's checked arithmetic which reverts on overflow and otherwise agrees
with `Nat`).
`address(0)` is the number `0`.  Solidity mappings are total functions
returning the zero-initialised default struct for absent keys, exactly as
the EVM does.  `msg.sender` and `block.timestamp` are explicit parameters.
A `require` failure (revert) is `Except.error` carrying the failure class
of the spec's error taxonomy; a revert leaves the store untouched, which
the embedding realises by returning no successor state.
-/

inductive CreditStatus
  | Active
  | Retired
  | Suspended
  deriving DecidableEq, Repr

inductive VerificationStatus
  | Pending
  | Verified
  | Rejected
  deriving DecidableEq, Repr

/-- Failure taxonomy of the specification (§7). Each `require` message of the
source is mapped to its class. -/
inductive Err
  | permissionDenied
  | notFound
  | invalidArgument
  | invalidStateTransition
  deriving DecidableEq, Repr

structure Credit where
  id : Nat
  owner : Nat
  producer : Nat
  producerName : String
  amount : Nat
  productionDate : Nat
  renewableSource : String
  location : String
  carbonIntensity : Nat
  verificationStatus : VerificationStatus
  status : CreditStatus
  certifier : Nat
  certificationDate : Nat
  metadata : String
  isRetired : Bool
  retirementDate : Nat
  retirementReason : String
  deriving DecidableEq, Repr

/-- The zero-initialised `Credit` struct a Solidity mapping yields for an
absent key.  Enum defaults are the first member (`Active`, `Pending`). -/
def defaultCredit : Credit :=
  { id := 0, owner := 0, producer := 0, producerName := "", amount := 0,
    productionDate := 0, renewableSource := "", location := "",
    carbonIntensity := 0, verificationStatus := .Pending, status := .Active,
    certifier := 0, certificationDate := 0, metadata := "",
    isRetired := false, retirementDate := 0, retirementReason := "" }

structure Auditor where
  auditorAddress : Nat
  name : String
  accreditation : String
  isActive : Bool
  verificationCount : Nat
  lastVerification : Nat
  deriving DecidableEq, Repr

def defaultAuditor : Auditor :=
  { auditorAddress := 0, name := "", accreditation := "", isActive := false,
    verificationCount := 0, lastVerification := 0 }

structure ProductionBatch where
  batchId : Nat
  producer : Nat
  totalAmount : Nat
  verificationCount : Nat
  isVerified : Bool
  creditIds : List Nat
  deriving DecidableEq, Repr

def defaultBatch : ProductionBatch :=
  { batchId := 0, producer := 0, totalAmount := 0, verificationCount := 0,
    isVerified := false, creditIds := [] }

/-- The contract's storage. -/
structure ContractState where
  nextId : Nat
  nextBatchId : Nat
  credits : Nat → Credit
  productionBatches : Nat → ProductionBatch
  auditors : Nat → Auditor
  isAuditor : Nat → Bool
  producerCredits : Nat → List Nat
  ownerCredits : Nat → List Nat
  regulator : Nat
  certifier : Nat

def MAX_CARBON_INTENSITY : Nat := 50
def MIN_VERIFICATION_COUNT : Nat := 2
def CREDIT_EXPIRY_DAYS : Nat := 365

/-- Point update of a mapping. -/
def upd {α : Type} (f : Nat → α) (k : Nat) (v : α) : Nat → α :=
  fun n => if n = k then v else f n

/-- The constructor: deployer becomes regulator and initial certifier. -/
def initState (deployer : Nat) : ContractState :=
  { nextId := 1, nextBatchId := 1,
    credits := fun _ => defaultCredit,
    productionBatches := fun _ => defaultBatch,
    auditors := fun _ => defaultAuditor,
    isAuditor := fun _ => false,
    producerCredits := fun _ => [],
    ownerCredits := fun _ => [],
    regulator := deployer, certifier := deployer }

def setCertifier (s : ContractState) (sender newCertifier : Nat) :
    Except Err ContractState :=
  if sender ≠ s.regulator then .error .permissionDenied
  else if newCertifier = 0 then .error .invalidArgument
  else .ok { s with certifier := newCertifier }

def registerAuditor (s : ContractState) (sender auditorAddress : Nat)
    (name accreditation : String) : Except Err ContractState :=
  if sender ≠ s.regulator then .error .permissionDenied
  else if auditorAddress = 0 then .error .invalidArgument
  else if s.isAuditor auditorAddress then .error .invalidStateTransition
  else .ok { s with
    auditors := upd s.auditors auditorAddress
      { auditorAddress := auditorAddress, name := name,
        accreditation := accreditation, isActive := true,
        verificationCount := 0, lastVerification := 0 },
    isAuditor := upd s.isAuditor auditorAddress true }

def deactivateAuditor (s : ContractState) (sender auditorAddress : Nat) :
    Except Err ContractState :=
  if sender ≠ s.regulator then .error .permissionDenied
  else if ¬ s.isAuditor auditorAddress then .error .notFound
  else .ok { s with
    auditors := upd s.auditors auditorAddress
      { s.auditors auditorAddress with isActive := false },
    isAuditor := upd s.isAuditor auditorAddress false }

def suspendCredit (s : ContractState) (sender id : Nat) (reason : String) :
    Except Err ContractState :=
  if sender ≠ s.regulator then .error .permissionDenied
  else if (s.credits id).id = 0 then .error .notFound
  else .ok { s with
    credits := upd s.credits id { s.credits id with status := .Suspended } }

def issueCredit (s : ContractState) (sender timestamp : Nat)
    (toAddr producer : Nat) (producerName : String)
    (amount productionDate : Nat) (renewableSource location : String)
    (carbonIntensity : Nat) (metadata : String) :
    Except Err ContractState :=
  if ¬ (sender = s.certifier ∨ sender = s.regulator) then
    .error .permissionDenied
  else if toAddr = 0 then .error .invalidArgument
  else if producer = 0 then .error .invalidArgument
  else if amount = 0 then .error .invalidArgument
  else if carbonIntensity > MAX_CARBON_INTENSITY then .error .invalidArgument
  else if productionDate > timestamp then .error .invalidArgument
  else .ok { s with
    credits := upd s.credits s.nextId
      { id := s.nextId, owner := toAddr, producer := producer,
        producerName := producerName, amount := amount,
        productionDate := productionDate,
        renewableSource := renewableSource, location := location,
        carbonIntensity := carbonIntensity,
        verificationStatus := .Pending, status := .Active,
        certifier := sender, certificationDate := timestamp,
        metadata := metadata, isRetired := false, retirementDate := 0,
        retirementReason := "" },
    producerCredits := upd s.producerCredits producer
      (s.producerCredits producer ++ [s.nextId]),
    ownerCredits := upd s.ownerCredits toAddr (s.ownerCredits toAddr ++ [s.nextId]),
    nextId := s.nextId + 1 }

def verifyCredit (s : ContractState) (sender timestamp id : Nat)
    (status : VerificationStatus) (verificationNotes : String) :
    Except Err ContractState :=
  if ¬ (s.isAuditor sender = true ∧ (s.auditors sender).isActive = true) then
    .error .permissionDenied
  else if (s.credits id).id = 0 then .error .notFound
  else if (s.credits id).isRetired then .error .invalidStateTransition
  else if (s.credits id).verificationStatus ≠ .Pending then
    .error .invalidStateTransition
  else .ok { s with
    credits := upd s.credits id
      { s.credits id with verificationStatus := status },
    auditors := upd s.auditors sender
      { s.auditors sender with
        verificationCount := (s.auditors sender).verificationCount + 1,
        lastVerification := timestamp } }

/-- The accumulation loop of `createProductionBatch`: checks each referenced
credit (producer match, then Verified) in order and sums the amounts. -/
def batchTotal (s : ContractState) (producer : Nat) :
    List Nat → Except Err Nat
  | [] => .ok 0
  | id :: rest =>
    if (s.credits id).producer ≠ producer then .error .invalidArgument
    else if (s.credits id).verificationStatus ≠ .Verified then
      .error .invalidStateTransition
    else
      match batchTotal s producer rest with
      | .ok t => .ok ((s.credits id).amount + t)
      | .error e => .error e

def createProductionBatch (s : ContractState) (sender : Nat)
    (producer : Nat) (creditIds : List Nat) : Except Err ContractState :=
  if ¬ (s.isAuditor sender = true ∧ (s.auditors sender).isActive = true) then
    .error .permissionDenied
  else if producer = 0 then .error .invalidArgument
  else if creditIds = [] then .error .invalidArgument
  else
    match batchTotal s producer creditIds with
    | .error e => .error e
    | .ok totalAmount =>
      .ok { s with
        productionBatches := upd s.productionBatches s.nextBatchId
          { batchId := s.nextBatchId, producer := producer,
            totalAmount := totalAmount, verificationCount := 1,
            isVerified := false, creditIds := creditIds },
        nextBatchId := s.nextBatchId + 1 }

def verifyProductionBatch (s : ContractState) (sender batchId : Nat) :
    Except Err ContractState :=
  if ¬ (s.isAuditor sender = true ∧ (s.auditors sender).isActive = true) then
    .error .permissionDenied
  else if (s.productionBatches batchId).batchId = 0 then .error .notFound
  else if (s.productionBatches batchId).isVerified then
    .error .invalidStateTransition
  else
    let b := s.productionBatches batchId
    let b1 := { b with verificationCount := b.verificationCount + 1 }
    let b2 := if b1.verificationCount ≥ MIN_VERIFICATION_COUNT then
        { b1 with isVerified := true } else b1
    .ok { s with productionBatches := upd s.productionBatches batchId b2 }

/-- `_removeFromArray`: find the first occurrence of `value`, overwrite it
with the last element, pop the last element; do nothing if absent. -/
def removeFromArray (array : List Nat) (value : Nat) : List Nat :=
  match array.findIdx? (fun x => x = value) with
  | none => array
  | some i => (array.set i (array.getLastD 0)).dropLast

def transferCredit (s : ContractState) (sender id toAddr : Nat) :
    Except Err ContractState :=
  if (s.credits id).id = 0 then .error .notFound
  else if sender ≠ (s.credits id).owner then .error .permissionDenied
  else if (s.credits id).isRetired then .error .invalidStateTransition
  else if toAddr = 0 then .error .invalidArgument
  else if (s.credits id).status ≠ .Active then .error .invalidStateTransition
  else if (s.credits id).verificationStatus ≠ .Verified then
    .error .invalidStateTransition
  else
    let fromAddr := (s.credits id).owner
    let oc1 := upd s.ownerCredits fromAddr
      (removeFromArray (s.ownerCredits fromAddr) id)
    .ok { s with
      credits := upd s.credits id { s.credits id with owner := toAddr },
      ownerCredits := upd oc1 toAddr (oc1 toAddr ++ [id]) }

def retireCredit (s : ContractState) (sender timestamp id : Nat)
    (reason : String) : Except Err ContractState :=
  if (s.credits id).id = 0 then .error .notFound
  else if sender ≠ (s.credits id).owner then .error .permissionDenied
  else if (s.credits id).isRetired then .error .invalidStateTransition
  else if (s.credits id).status ≠ .Active then .error .invalidStateTransition
  else if (s.credits id).verificationStatus ≠ .Verified then
    .error .invalidStateTransition
  else .ok { s with
    credits := upd s.credits id
      { s.credits id with
        isRetired := true, retirementDate := timestamp,
        retirementReason := reason, status := .Retired } }

def getCredit (s : ContractState) (id : Nat) : Except Err Credit :=
  if (s.credits id).id = 0 then .error .notFound else .ok (s.credits id)

def getAuditor (s : ContractState) (auditorAddress : Nat) :
    Except Err Auditor :=
  if ¬ s.isAuditor auditorAddress then .error .notFound
  else .ok (s.auditors auditorAddress)

def getProductionBatch (s : ContractState) (batchId : Nat) :
    Except Err ProductionBatch :=
  if (s.productionBatches batchId).batchId = 0 then .error .notFound
  else .ok (s.productionBatches batchId)

def getTotalCreditsByProducer (s : ContractState) (producer : Nat) : Nat :=
  (s.producerCredits producer).foldl
    (fun total id =>
      if (s.credits id).status = CreditStatus.Active ∧
          (s.credits id).isRetired = false
      then total + (s.credits id).amount else total) 0

/-! ### Basic lemmas about the mapping update and `removeFromArray` -/

theorem upd_apply {α : Type} (f : Nat → α) (k : Nat) (v : α) (n : Nat) :
    upd f k v n = if n = k then v else f n := rfl

theorem upd_same {α : Type} (f : Nat → α) (k : Nat) (v : α) :
    upd f k v k = v := by simp [upd]

theorem upd_ne {α : Type} (f : Nat → α) (k : Nat) (v : α) {n : Nat}
    (h : n ≠ k) : upd f k v n = f n := by simp [upd, h]

theorem getLastD_irrel {l : List Nat} (h : l ≠ []) (d1 d2 : Nat) :
    l.getLastD d1 = l.getLastD d2 := by
  rw [List.getLastD_eq_getLast?, List.getLastD_eq_getLast?,
    List.getLast?_eq_getLast l h]
  rfl

theorem cons_getLastD_dropLast_perm (l : List Nat) (d : Nat) (h : l ≠ []) :
    List.Perm (l.getLastD d :: l.dropLast) l := by
  have h1 : l.getLastD d = l.getLast h := by
    rw [List.getLastD_eq_getLast?, List.getLast?_eq_getLast l h]
    rfl
  rw [h1]
  have h2 := List.dropLast_append_getLast h
  have h3 : List.Perm (l.dropLast ++ [l.getLast h])
      (l.getLast h :: l.dropLast) := List.perm_append_singleton _ _
  exact (h2 ▸ h3).symm

theorem removeFromArray_eq_of_none {a : List Nat} {v : Nat}
    (h : a.findIdx? (fun z => z = v) = none) : removeFromArray a v = a := by
  rw [removeFromArray, h]

theorem removeFromArray_eq_of_some {a : List Nat} {v : Nat} {i : Nat}
    (h : a.findIdx? (fun z => z = v) = some i) :
    removeFromArray a v = (a.set i (a.getLastD 0)).dropLast := by
  rw [removeFromArray, h]

/-- The swap-and-pop removal is, as a multiset, removal of the first
occurrence. -/
theorem removeFromArray_perm (a : List Nat) (v : Nat) :
    List.Perm (removeFromArray a v) (a.erase v) := by
  induction a with
  | nil => simp [removeFromArray]
  | cons x xs ih =>
    by_cases hx : x = v
    · have hfind : (x :: xs).findIdx? (fun z => z = v) = some 0 := by
        rw [List.findIdx?_cons, if_pos (by simp [hx])]
      rw [removeFromArray_eq_of_some hfind]
      subst hx
      rw [List.erase_cons_head]
      cases xs with
      | nil => simp
      | cons y ys =>
        have hne : (y :: ys : List Nat) ≠ [] := by simp
        rw [List.set_cons_zero]
        have hgl : (x :: y :: ys).getLastD 0 = (y :: ys).getLastD 0 := by
          rw [List.getLastD_cons]
          exact getLastD_irrel hne x 0
        rw [hgl, List.dropLast_cons₂]
        exact cons_getLastD_dropLast_perm (y :: ys) 0 hne
    · cases hfind : xs.findIdx? (fun z => z = v) with
      | none =>
        have h2 : (x :: xs).findIdx? (fun z => z = v) = none := by
          rw [List.findIdx?_cons, if_neg (by simp [hx]), List.findIdx?_succ,
            hfind]
          rfl
        rw [removeFromArray_eq_of_none h2,
          List.erase_cons_tail (by simp [hx])]
        have hxs : removeFromArray xs v = xs := removeFromArray_eq_of_none hfind
        rw [hxs] at ih
        exact List.Perm.cons x ih
      | some j =>
        have h2 : (x :: xs).findIdx? (fun z => z = v) = some (j + 1) := by
          rw [List.findIdx?_cons, if_neg (by simp [hx]), List.findIdx?_succ,
            hfind]
          rfl
        rw [removeFromArray_eq_of_some h2,
          List.erase_cons_tail (by simp [hx])]
        have hxs_ne : xs ≠ [] := by
          intro hnil
          rw [hnil] at hfind
          simp at hfind
        rw [List.set_cons_succ]
        have hgl : (x :: xs).getLastD 0 = xs.getLastD 0 := by
          rw [List.getLastD_cons]
          exact getLastD_irrel hxs_ne x 0
        rw [hgl]
        have hset_ne : xs.set j (xs.getLastD 0) ≠ [] := by
          intro hnil
          have := congrArg List.length hnil
          simp at this
          exact hxs_ne this
        rw [List.dropLast_cons_of_ne_nil hset_ne]
        refine List.Perm.cons x ?_
        have hxs2 : removeFromArray xs v =
            (xs.set j (xs.getLastD 0)).dropLast :=
          removeFromArray_eq_of_some hfind
        rw [hxs2] at ih
        exact ih

theorem removeFromArray_count_self {a : List Nat} {v : Nat} (hm : v ∈ a) :
    (removeFromArray a v).count v = a.count v - 1 := by
  rw [(removeFromArray_perm a v).count_eq, List.count_erase_self]

theorem removeFromArray_count_ne (a : List Nat) {v w : Nat} (h : w ≠ v) :
    (removeFromArray a v).count w = a.count w := by
  rw [(removeFromArray_perm a v).count_eq, List.count_erase_of_ne h]

theorem mem_of_mem_removeFromArray {a : List Nat} {v w : Nat}
    (h : w ∈ removeFromArray a v) : w ∈ a :=
  List.mem_of_mem_erase ((removeFromArray_perm a v).mem_iff.mp h)

/-! ### Inversion lemmas: what a successful call implies -/

theorem setCertifier_ok {s s' : ContractState} {sender nc : Nat}
    (h : setCertifier s sender nc = .ok s') :
    sender = s.regulator ∧ nc ≠ 0 ∧ s' = { s with certifier := nc } := by
  unfold setCertifier at h
  split_ifs at h with h1 h2
  exact ⟨not_not.mp h1, h2, (Except.ok.inj h).symm⟩

theorem registerAuditor_ok {s s' : ContractState} {sender a : Nat}
    {name acc : String}
    (h : registerAuditor s sender a name acc = .ok s') :
    sender = s.regulator ∧ a ≠ 0 ∧ s.isAuditor a = false ∧
    s' = { s with
      auditors := upd s.auditors a
        { auditorAddress := a, name := name, accreditation := acc,
          isActive := true, verificationCount := 0, lastVerification := 0 },
      isAuditor := upd s.isAuditor a true } := by
  unfold registerAuditor at h
  split_ifs at h with h1 h2 h3
  exact ⟨not_not.mp h1, h2, by simpa using h3, (Except.ok.inj h).symm⟩

theorem deactivateAuditor_ok {s s' : ContractState} {sender a : Nat}
    (h : deactivateAuditor s sender a = .ok s') :
    sender = s.regulator ∧ s.isAuditor a = true ∧
    s' = { s with
      auditors := upd s.auditors a { s.auditors a with isActive := false },
      isAuditor := upd s.isAuditor a false } := by
  unfold deactivateAuditor at h
  split_ifs at h with h1 h2
  exact ⟨not_not.mp h1, h2, (Except.ok.inj h).symm⟩

theorem suspendCredit_ok {s s' : ContractState} {sender id : Nat}
    {reason : String}
    (h : suspendCredit s sender id reason = .ok s') :
    sender = s.regulator ∧ (s.credits id).id ≠ 0 ∧
    s' = { s with
      credits := upd s.credits id
        { s.credits id with status := .Suspended } } := by
  unfold suspendCredit at h
  split_ifs at h with h1 h2
  exact ⟨not_not.mp h1, h2, (Except.ok.inj h).symm⟩

theorem issueCredit_ok {s s' : ContractState}
    {sender timestamp toAddr producer amount productionDate ci : Nat}
    {pn rs loc md : String}
    (h : issueCredit s sender timestamp toAddr producer pn amount
      productionDate rs loc ci md = .ok s') :
    (sender = s.certifier ∨ sender = s.regulator) ∧ toAddr ≠ 0 ∧
    producer ≠ 0 ∧ amount ≠ 0 ∧ ci ≤ MAX_CARBON_INTENSITY ∧
    productionDate ≤ timestamp ∧
    s' = { s with
      credits := upd s.credits s.nextId
        { id := s.nextId, owner := toAddr, producer := producer,
          producerName := pn, amount := amount,
          productionDate := productionDate, renewableSource := rs,
          location := loc, carbonIntensity := ci,
          verificationStatus := .Pending, status := .Active,
          certifier := sender, certificationDate := timestamp,
          metadata := md, isRetired := false, retirementDate := 0,
          retirementReason := "" },
      producerCredits := upd s.producerCredits producer
        (s.producerCredits producer ++ [s.nextId]),
      ownerCredits := upd s.ownerCredits toAddr
        (s.ownerCredits toAddr ++ [s.nextId]),
      nextId := s.nextId + 1 } := by
  unfold issueCredit at h
  split_ifs at h with h1 h2 h3 h4 h5 h6
  exact ⟨h1, h2, h3, h4, by omega, by omega, (Except.ok.inj h).symm⟩

theorem verifyCredit_ok {s s' : ContractState} {sender timestamp id : Nat}
    {status : VerificationStatus} {notes : String}
    (h : verifyCredit s sender timestamp id status notes = .ok s') :
    s.isAuditor sender = true ∧ (s.auditors sender).isActive = true ∧
    (s.credits id).id ≠ 0 ∧ (s.credits id).isRetired = false ∧
    (s.credits id).verificationStatus = .Pending ∧
    s' = { s with
      credits := upd s.credits id
        { s.credits id with verificationStatus := status },
      auditors := upd s.auditors sender
        { s.auditors sender with
          verificationCount := (s.auditors sender).verificationCount + 1,
          lastVerification := timestamp } } := by
  unfold verifyCredit at h
  split_ifs at h with h1 h2 h3 h4
  exact ⟨h1.1, h1.2, h2, by simpa using h3, not_not.mp h4,
    (Except.ok.inj h).symm⟩

theorem batchTotal_ok {s : ContractState} {producer : Nat} {ids : List Nat}
    {tot : Nat} (h : batchTotal s producer ids = .ok tot) :
    tot = (ids.map (fun i => (s.credits i).amount)).sum ∧
    ∀ i ∈ ids, (s.credits i).producer = producer ∧
      (s.credits i).verificationStatus = .Verified := by
  induction ids generalizing tot with
  | nil =>
    unfold batchTotal at h
    refine ⟨by simpa using (Except.ok.inj h).symm, by simp⟩
  | cons x rest ih =>
    unfold batchTotal at h
    split_ifs at h with h1 h2
    cases hrec : batchTotal s producer rest with
    | error e => rw [hrec] at h; cases h
    | ok t =>
      rw [hrec] at h
      obtain ⟨ht, hall⟩ := ih hrec
      refine ⟨?_, ?_⟩
      · have := (Except.ok.inj h).symm
        simp only [List.map_cons, List.sum_cons]
        omega
      · intro i hi
        rcases List.mem_cons.mp hi with rfl | hi'
        · exact ⟨not_not.mp h1, not_not.mp h2⟩
        · exact hall i hi'

theorem batchTotal_ok_of_valid {s : ContractState} {producer : Nat}
    {ids : List Nat}
    (h : ∀ i ∈ ids, (s.credits i).producer = producer ∧
      (s.credits i).verificationStatus = .Verified) :
    batchTotal s producer ids =
      .ok ((ids.map (fun i => (s.credits i).amount)).sum) := by
  induction ids with
  | nil => rfl
  | cons x rest ih =>
    have hx := h x (List.mem_cons_self x rest)
    unfold batchTotal
    rw [if_neg (not_not.mpr hx.1), if_neg (not_not.mpr hx.2),
      ih (fun i hi => h i (List.mem_cons_of_mem x hi))]
    simp

theorem createProductionBatch_ok {s s' : ContractState} {sender producer : Nat}
    {ids : List Nat}
    (h : createProductionBatch s sender producer ids = .ok s') :
    s.isAuditor sender = true ∧ (s.auditors sender).isActive = true ∧
    producer ≠ 0 ∧ ids ≠ [] ∧
    batchTotal s producer ids =
      .ok ((ids.map (fun i => (s.credits i).amount)).sum) ∧
    s' = { s with
      productionBatches := upd s.productionBatches s.nextBatchId
        { batchId := s.nextBatchId, producer := producer,
          totalAmount := (ids.map (fun i => (s.credits i).amount)).sum,
          verificationCount := 1, isVerified := false, creditIds := ids },
      nextBatchId := s.nextBatchId + 1 } := by
  unfold createProductionBatch at h
  split_ifs at h with h1 h2 h3
  cases htot : batchTotal s producer ids with
  | error e => rw [htot] at h; cases h
  | ok tot =>
    rw [htot] at h
    have hsum := (batchTotal_ok htot).1
    subst hsum
    exact ⟨h1.1, h1.2, h2, h3, rfl, (Except.ok.inj h).symm⟩

theorem verifyProductionBatch_ok {s s' : ContractState} {sender batchId : Nat}
    (h : verifyProductionBatch s sender batchId = .ok s') :
    s.isAuditor sender = true ∧ (s.auditors sender).isActive = true ∧
    (s.productionBatches batchId).batchId ≠ 0 ∧
    (s.productionBatches batchId).isVerified = false ∧
    s' = { s with
      productionBatches := upd s.productionBatches batchId
        (if (s.productionBatches batchId).verificationCount + 1 ≥
            MIN_VERIFICATION_COUNT then
          { s.productionBatches batchId with
            verificationCount :=
              (s.productionBatches batchId).verificationCount + 1,
            isVerified := true }
        else
          { s.productionBatches batchId with
            verificationCount :=
              (s.productionBatches batchId).verificationCount + 1 }) } := by
  unfold verifyProductionBatch at h
  split_ifs at h with h1 h2 h3
  exact ⟨h1.1, h1.2, h2, by simpa using h3, (Except.ok.inj h).symm⟩

theorem transferCredit_ok {s s' : ContractState} {sender id toAddr : Nat}
    (h : transferCredit s sender id toAddr = .ok s') :
    (s.credits id).id ≠ 0 ∧ sender = (s.credits id).owner ∧
    (s.credits id).isRetired = false ∧ toAddr ≠ 0 ∧
    (s.credits id).status = .Active ∧
    (s.credits id).verificationStatus = .Verified ∧
    s' = { s with
      credits := upd s.credits id { s.credits id with owner := toAddr },
      ownerCredits :=
        upd (upd s.ownerCredits (s.credits id).owner
              (removeFromArray (s.ownerCredits ((s.credits id).owner)) id))
          toAddr
          ((upd s.ownerCredits (s.credits id).owner
              (removeFromArray (s.ownerCredits ((s.credits id).owner)) id))
            toAddr ++ [id]) } := by
  unfold transferCredit at h
  split_ifs at h with h1 h2 h3 h4 h5 h6
  exact ⟨h1, not_not.mp h2, by simpa using h3, h4, not_not.mp h5,
    not_not.mp h6, (Except.ok.inj h).symm⟩

theorem retireCredit_ok {s s' : ContractState} {sender timestamp id : Nat}
    {reason : String}
    (h : retireCredit s sender timestamp id reason = .ok s') :
    (s.credits id).id ≠ 0 ∧ sender = (s.credits id).owner ∧
    (s.credits id).isRetired = false ∧ (s.credits id).status = .Active ∧
    (s.credits id).verificationStatus = .Verified ∧
    s' = { s with
      credits := upd s.credits id
        { s.credits id with
          isRetired := true, retirementDate := timestamp,
          retirementReason := reason, status := .Retired } } := by
  unfold retireCredit at h
  split_ifs at h with h1 h2 h3 h4 h5
  exact ⟨h1, not_not.mp h2, by simpa using h3, not_not.mp h4,
    not_not.mp h5, (Except.ok.inj h).symm⟩

/-! ### The reachable-state invariant -/

/-- Invariant maintained by every contract operation.  It packages the
bookkeeping facts the claims need: identifier discipline, owner-index and
producer-index multiplicity, the retirement flags, and the batch
verification counter discipline. -/
structure RegInv (s : ContractState) : Prop where
  nextId_pos : 1 ≤ s.nextId
  nextBatchId_pos : 1 ≤ s.nextBatchId
  credit_default : ∀ id, (s.credits id).id = 0 → s.credits id = defaultCredit
  credit_id : ∀ id, (s.credits id).id ≠ 0 →
    (s.credits id).id = id ∧ 1 ≤ id ∧ id < s.nextId
  owner_mem : ∀ a id, id ∈ s.ownerCredits a →
    (s.credits id).id ≠ 0 ∧ (s.credits id).owner = a
  owner_count : ∀ id, (s.credits id).id ≠ 0 →
    (s.ownerCredits ((s.credits id).owner)).count id = 1
  prod_mem : ∀ a id, id ∈ s.producerCredits a →
    (s.credits id).id ≠ 0 ∧ (s.credits id).producer = a
  prod_count : ∀ id, (s.credits id).id ≠ 0 →
    (s.producerCredits ((s.credits id).producer)).count id = 1
  retired_status : ∀ id, (s.credits id).isRetired = true →
    (s.credits id).status = .Retired ∨ (s.credits id).status = .Suspended
  status_retired : ∀ id, (s.credits id).status = .Retired →
    (s.credits id).isRetired = true
  batch_default : ∀ b, (s.productionBatches b).batchId = 0 →
    s.productionBatches b = defaultBatch
  batch_id : ∀ b, (s.productionBatches b).batchId ≠ 0 →
    (s.productionBatches b).batchId = b ∧ 1 ≤ b ∧ b < s.nextBatchId
  batch_count_pos : ∀ b, (s.productionBatches b).batchId ≠ 0 →
    1 ≤ (s.productionBatches b).verificationCount
  batch_verified_iff : ∀ b, (s.productionBatches b).isVerified = true ↔
    MIN_VERIFICATION_COUNT ≤ (s.productionBatches b).verificationCount

/-- A credit's id never occurs in the owned-index of a non-owner. -/
theorem RegInv.owner_count_other {s : ContractState} (hinv : RegInv s) (id a : Nat)
    (hex : (s.credits id).id ≠ 0) (ha : a ≠ (s.credits id).owner) :
    (s.ownerCredits a).count id = 0 := by
  rw [List.count_eq_zero]
  intro hmem
  exact ha ((hinv.owner_mem a id hmem).2.symm ▸ rfl)

/-- A credit's id never occurs in the produced-index of another producer. -/
theorem RegInv.prod_count_other {s : ContractState} (hinv : RegInv s) (id a : Nat)
    (hex : (s.credits id).id ≠ 0) (ha : a ≠ (s.credits id).producer) :
    (s.producerCredits a).count id = 0 := by
  rw [List.count_eq_zero]
  intro hmem
  exact ha ((hinv.prod_mem a id hmem).2.symm ▸ rfl)

/-- An id at or past the `nextId` counter identifies no credit yet. -/
theorem RegInv.credit_fresh {s : ContractState} (hinv : RegInv s) (id : Nat)
    (h : s.nextId ≤ id) : (s.credits id).id = 0 := by
  by_contra hne
  have := (hinv.credit_id id hne).2.2
  omega

/-- One mutating invocation of the contract: some operation, by some caller,
at some time, succeeded. -/
inductive Step : ContractState → ContractState → Prop
  | setCertifierStep (s s' : ContractState) (sender nc : Nat)
      (h : setCertifier s sender nc = .ok s') : Step s s'
  | registerAuditorStep (s s' : ContractState) (sender a : Nat)
      (name acc : String)
      (h : registerAuditor s sender a name acc = .ok s') : Step s s'
  | deactivateAuditorStep (s s' : ContractState) (sender a : Nat)
      (h : deactivateAuditor s sender a = .ok s') : Step s s'
  | suspendCreditStep (s s' : ContractState) (sender id : Nat)
      (reason : String)
      (h : suspendCredit s sender id reason = .ok s') : Step s s'
  | issueCreditStep (s s' : ContractState)
      (sender timestamp toAddr producer amount productionDate ci : Nat)
      (pn rs loc md : String)
      (h : issueCredit s sender timestamp toAddr producer pn amount
        productionDate rs loc ci md = .ok s') : Step s s'
  | verifyCreditStep (s s' : ContractState) (sender timestamp id : Nat)
      (status : VerificationStatus) (notes : String)
      (h : verifyCredit s sender timestamp id status notes = .ok s') :
      Step s s'
  | createProductionBatchStep (s s' : ContractState) (sender producer : Nat)
      (ids : List Nat)
      (h : createProductionBatch s sender producer ids = .ok s') : Step s s'
  | verifyProductionBatchStep (s s' : ContractState) (sender batchId : Nat)
      (h : verifyProductionBatch s sender batchId = .ok s') : Step s s'
  | transferCreditStep (s s' : ContractState) (sender id toAddr : Nat)
      (h : transferCredit s sender id toAddr = .ok s') : Step s s'
  | retireCreditStep (s s' : ContractState) (sender timestamp id : Nat)
      (reason : String)
      (h : retireCredit s sender timestamp id reason = .ok s') : Step s s'

/-- States reachable from a freshly deployed contract by successful
operations. -/
inductive Reachable : ContractState → Prop
  | deployed (deployer : Nat) : Reachable (initState deployer)
  | step {s s' : ContractState} (hr : Reachable s) (hs : Step s s') :
      Reachable s'

theorem inv_init (deployer : Nat) : RegInv (initState deployer) := by
  constructor <;>
    simp [initState, defaultCredit, defaultBatch, MIN_VERIFICATION_COUNT]

/-! ### Preservation of the invariant by each operation -/

theorem regInv_congr {s s' : ContractState} (hinv : RegInv s)
    (h1 : s'.nextId = s.nextId) (h2 : s'.nextBatchId = s.nextBatchId)
    (h3 : s'.credits = s.credits)
    (h4 : s'.productionBatches = s.productionBatches)
    (h5 : s'.producerCredits = s.producerCredits)
    (h6 : s'.ownerCredits = s.ownerCredits) : RegInv s' := by
  constructor
  · rw [h1]; exact hinv.nextId_pos
  · rw [h2]; exact hinv.nextBatchId_pos
  · rw [h3]; exact hinv.credit_default
  · rw [h3, h1]; exact hinv.credit_id
  · rw [h3, h6]; exact hinv.owner_mem
  · rw [h3, h6]; exact hinv.owner_count
  · rw [h3, h5]; exact hinv.prod_mem
  · rw [h3, h5]; exact hinv.prod_count
  · rw [h3]; exact hinv.retired_status
  · rw [h3]; exact hinv.status_retired
  · rw [h4]; exact hinv.batch_default
  · rw [h4, h2]; exact hinv.batch_id
  · rw [h4]; exact hinv.batch_count_pos
  · rw [h4]; exact hinv.batch_verified_iff

theorem inv_setCertifier {s s' : ContractState} {sender nc : Nat}
    (hinv : RegInv s) (h : setCertifier s sender nc = .ok s') : RegInv s' := by
  obtain ⟨-, -, rfl⟩ := setCertifier_ok h
  exact regInv_congr hinv rfl rfl rfl rfl rfl rfl

theorem inv_registerAuditor {s s' : ContractState} {sender a : Nat}
    {name acc : String} (hinv : RegInv s)
    (h : registerAuditor s sender a name acc = .ok s') : RegInv s' := by
  obtain ⟨-, -, -, rfl⟩ := registerAuditor_ok h
  exact regInv_congr hinv rfl rfl rfl rfl rfl rfl

theorem inv_deactivateAuditor {s s' : ContractState} {sender a : Nat}
    (hinv : RegInv s) (h : deactivateAuditor s sender a = .ok s') :
    RegInv s' := by
  obtain ⟨-, -, rfl⟩ := deactivateAuditor_ok h
  exact regInv_congr hinv rfl rfl rfl rfl rfl rfl

theorem inv_suspendCredit {s s' : ContractState} {sender id : Nat}
    {reason : String} (hinv : RegInv s)
    (h : suspendCredit s sender id reason = .ok s') : RegInv s' := by
  obtain ⟨-, hex, hs'⟩ := suspendCredit_ok h
  have hc : ∀ j, s'.credits j =
      if j = id then { s.credits id with status := .Suspended }
      else s.credits j := by
    intro j
    rw [hs']
    rfl
  have hni : s'.nextId = s.nextId := by rw [hs']
  have hnb : s'.nextBatchId = s.nextBatchId := by rw [hs']
  have hpb : s'.productionBatches = s.productionBatches := by rw [hs']
  have hpc : s'.producerCredits = s.producerCredits := by rw [hs']
  have hoc : s'.ownerCredits = s.ownerCredits := by rw [hs']
  constructor
  · rw [hni]; exact hinv.nextId_pos
  · rw [hnb]; exact hinv.nextBatchId_pos
  · intro j hj
    rw [hc j] at hj ⊢
    by_cases hji : j = id
    · rw [if_pos hji] at hj
      exact absurd hj hex
    · rw [if_neg hji] at hj ⊢
      exact hinv.credit_default j hj
  · intro j hj
    rw [hni, hc j]
    rw [hc j] at hj
    by_cases hji : j = id
    · rw [if_pos hji] at hj ⊢
      subst hji
      exact hinv.credit_id j hex
    · rw [if_neg hji] at hj ⊢
      exact hinv.credit_id j hj
  · intro a j hmem
    rw [hoc] at hmem
    have hm := hinv.owner_mem a j hmem
    rw [hc j]
    by_cases hji : j = id
    · subst hji
      rw [if_pos rfl]
      exact hm
    · rw [if_neg hji]
      exact hm
  · intro j hj
    rw [hoc, hc j]
    rw [hc j] at hj
    by_cases hji : j = id
    · subst hji
      rw [if_pos rfl]
      exact hinv.owner_count j hex
    · rw [if_neg hji] at hj ⊢
      exact hinv.owner_count j hj
  · intro a j hmem
    rw [hpc] at hmem
    have hm := hinv.prod_mem a j hmem
    rw [hc j]
    by_cases hji : j = id
    · subst hji
      rw [if_pos rfl]
      exact hm
    · rw [if_neg hji]
      exact hm
  · intro j hj
    rw [hpc, hc j]
    rw [hc j] at hj
    by_cases hji : j = id
    · subst hji
      rw [if_pos rfl]
      exact hinv.prod_count j hex
    · rw [if_neg hji] at hj ⊢
      exact hinv.prod_count j hj
  · intro j hj
    rw [hc j] at hj ⊢
    by_cases hji : j = id
    · rw [if_pos hji]
      exact Or.inr rfl
    · rw [if_neg hji] at hj ⊢
      exact hinv.retired_status j hj
  · intro j hj
    rw [hc j] at hj ⊢
    by_cases hji : j = id
    · rw [if_pos hji] at hj
      simp at hj
    · rw [if_neg hji] at hj ⊢
      exact hinv.status_retired j hj
  · rw [hpb]; exact hinv.batch_default
  · rw [hpb, hnb]; exact hinv.batch_id
  · rw [hpb]; exact hinv.batch_count_pos
  · rw [hpb]; exact hinv.batch_verified_iff

/-- Invariant preservation for any operation that rewrites a single existing
credit without changing its identifier, owner or producer, and touches no
other storage slot. -/
theorem regInv_update_credit {s s' : ContractState} (hinv : RegInv s)
    (id : Nat) (hex : (s.credits id).id ≠ 0) (c' : Credit)
    (hid : c'.id = (s.credits id).id)
    (hown : c'.owner = (s.credits id).owner)
    (hprod : c'.producer = (s.credits id).producer)
    (hret : c'.isRetired = true →
      c'.status = .Retired ∨ c'.status = .Suspended)
    (hst : c'.status = .Retired → c'.isRetired = true)
    (hc : ∀ j, s'.credits j = if j = id then c' else s.credits j)
    (hni : s'.nextId = s.nextId) (hnb : s'.nextBatchId = s.nextBatchId)
    (hpb : s'.productionBatches = s.productionBatches)
    (hpc : s'.producerCredits = s.producerCredits)
    (hoc : s'.ownerCredits = s.ownerCredits) : RegInv s' := by
  constructor
  · rw [hni]; exact hinv.nextId_pos
  · rw [hnb]; exact hinv.nextBatchId_pos
  · intro j hj
    rw [hc j] at hj ⊢
    by_cases hji : j = id
    · rw [if_pos hji] at hj
      rw [hid] at hj
      exact absurd hj hex
    · rw [if_neg hji] at hj ⊢
      exact hinv.credit_default j hj
  · intro j hj
    rw [hni, hc j]
    rw [hc j] at hj
    by_cases hji : j = id
    · subst hji
      rw [if_pos rfl, hid]
      exact hinv.credit_id j hex
    · rw [if_neg hji] at hj ⊢
      exact hinv.credit_id j hj
  · intro a j hmem
    rw [hoc] at hmem
    have hm := hinv.owner_mem a j hmem
    rw [hc j]
    by_cases hji : j = id
    · subst hji
      rw [if_pos rfl, hid, hown]
      exact hm
    · rw [if_neg hji]
      exact hm
  · intro j hj
    rw [hoc, hc j]
    rw [hc j] at hj
    by_cases hji : j = id
    · subst hji
      rw [if_pos rfl, hown]
      exact hinv.owner_count j hex
    · rw [if_neg hji] at hj ⊢
      exact hinv.owner_count j hj
  · intro a j hmem
    rw [hpc] at hmem
    have hm := hinv.prod_mem a j hmem
    rw [hc j]
    by_cases hji : j = id
    · subst hji
      rw [if_pos rfl, hid, hprod]
      exact hm
    · rw [if_neg hji]
      exact hm
  · intro j hj
    rw [hpc, hc j]
    rw [hc j] at hj
    by_cases hji : j = id
    · subst hji
      rw [if_pos rfl, hprod]
      exact hinv.prod_count j hex
    · rw [if_neg hji] at hj ⊢
      exact hinv.prod_count j hj
  · intro j hj
    rw [hc j] at hj ⊢
    by_cases hji : j = id
    · rw [if_pos hji] at hj ⊢
      exact hret hj
    · rw [if_neg hji] at hj ⊢
      exact hinv.retired_status j hj
  · intro j hj
    rw [hc j] at hj ⊢
    by_cases hji : j = id
    · rw [if_pos hji] at hj ⊢
      exact hst hj
    · rw [if_neg hji] at hj ⊢
      exact hinv.status_retired j hj
  · rw [hpb]; exact hinv.batch_default
  · rw [hpb, hnb]; exact hinv.batch_id
  · rw [hpb]; exact hinv.batch_count_pos
  · rw [hpb]; exact hinv.batch_verified_iff

theorem inv_verifyCredit {s s' : ContractState} {sender timestamp id : Nat}
    {status : VerificationStatus} {notes : String} (hinv : RegInv s)
    (h : verifyCredit s sender timestamp id status notes = .ok s') :
    RegInv s' := by
  obtain ⟨-, -, hex, -, -, hs'⟩ := verifyCredit_ok h
  refine regInv_update_credit hinv id hex
    { s.credits id with verificationStatus := status }
    rfl rfl rfl (fun hr => hinv.retired_status id hr)
    (fun hr => hinv.status_retired id hr)
    (fun j => by rw [hs']; rfl)
    (by rw [hs']) (by rw [hs']) (by rw [hs']) (by rw [hs']) (by rw [hs'])

theorem inv_retireCredit {s s' : ContractState} {sender timestamp id : Nat}
    {reason : String} (hinv : RegInv s)
    (h : retireCredit s sender timestamp id reason = .ok s') : RegInv s' := by
  obtain ⟨hex, -, -, -, -, hs'⟩ := retireCredit_ok h
  refine regInv_update_credit hinv id hex
    { s.credits id with
      isRetired := true, retirementDate := timestamp,
      retirementReason := reason, status := .Retired }
    rfl rfl rfl (fun _ => Or.inl rfl) (fun _ => rfl)
    (fun j => by rw [hs']; rfl)
    (by rw [hs']) (by rw [hs']) (by rw [hs']) (by rw [hs']) (by rw [hs'])

/-- Invariant preservation for an operation that only touches the batch
store and the batch counter. -/
theorem regInv_update_batches {s s' : ContractState} (hinv : RegInv s)
    (hni : s'.nextId = s.nextId) (h3 : s'.credits = s.credits)
    (hpc : s'.producerCredits = s.producerCredits)
    (hoc : s'.ownerCredits = s.ownerCredits)
    (hnbp : 1 ≤ s'.nextBatchId)
    (hd : ∀ b, (s'.productionBatches b).batchId = 0 →
      s'.productionBatches b = defaultBatch)
    (hb : ∀ b, (s'.productionBatches b).batchId ≠ 0 →
      (s'.productionBatches b).batchId = b ∧ 1 ≤ b ∧ b < s'.nextBatchId)
    (hcp : ∀ b, (s'.productionBatches b).batchId ≠ 0 →
      1 ≤ (s'.productionBatches b).verificationCount)
    (hvi : ∀ b, (s'.productionBatches b).isVerified = true ↔
      MIN_VERIFICATION_COUNT ≤ (s'.productionBatches b).verificationCount) :
    RegInv s' := by
  constructor
  · rw [hni]; exact hinv.nextId_pos
  · exact hnbp
  · rw [h3]; exact hinv.credit_default
  · rw [h3, hni]; exact hinv.credit_id
  · rw [h3, hoc]; exact hinv.owner_mem
  · rw [h3, hoc]; exact hinv.owner_count
  · rw [h3, hpc]; exact hinv.prod_mem
  · rw [h3, hpc]; exact hinv.prod_count
  · rw [h3]; exact hinv.retired_status
  · rw [h3]; exact hinv.status_retired
  · exact hd
  · exact hb
  · exact hcp
  · exact hvi

theorem inv_createProductionBatch {s s' : ContractState}
    {sender producer : Nat} {ids : List Nat} (hinv : RegInv s)
    (h : createProductionBatch s sender producer ids = .ok s') :
    RegInv s' := by
  obtain ⟨-, -, -, -, -, hs'⟩ := createProductionBatch_ok h
  have hbf : ∀ b, s'.productionBatches b =
      if b = s.nextBatchId then
        { batchId := s.nextBatchId, producer := producer,
          totalAmount := (ids.map (fun i => (s.credits i).amount)).sum,
          verificationCount := 1, isVerified := false, creditIds := ids }
      else s.productionBatches b := by
    intro b
    rw [hs']
    rfl
  have hnb : s'.nextBatchId = s.nextBatchId + 1 := by rw [hs']
  have hpos := hinv.nextBatchId_pos
  refine regInv_update_batches hinv (by rw [hs']) (by rw [hs'])
    (by rw [hs']) (by rw [hs']) (by omega) ?_ ?_ ?_ ?_
  · intro b hb0
    rw [hbf b] at hb0 ⊢
    by_cases hbn : b = s.nextBatchId
    · rw [if_pos hbn] at hb0
      have hb0' : s.nextBatchId = 0 := hb0
      omega
    · rw [if_neg hbn] at hb0 ⊢
      exact hinv.batch_default b hb0
  · intro b hbne
    rw [hbf b] at hbne ⊢
    rw [hnb]
    by_cases hbn : b = s.nextBatchId
    · subst hbn
      rw [if_pos rfl]
      exact ⟨rfl, hpos, by omega⟩
    · rw [if_neg hbn] at hbne ⊢
      obtain ⟨e1, e2, e3⟩ := hinv.batch_id b hbne
      exact ⟨e1, e2, by omega⟩
  · intro b hbne
    rw [hbf b] at hbne ⊢
    by_cases hbn : b = s.nextBatchId
    · rw [if_pos hbn]
    · rw [if_neg hbn] at hbne ⊢
      exact hinv.batch_count_pos b hbne
  · intro b
    rw [hbf b]
    by_cases hbn : b = s.nextBatchId
    · rw [if_pos hbn]
      simp [MIN_VERIFICATION_COUNT]
    · rw [if_neg hbn]
      exact hinv.batch_verified_iff b

theorem inv_verifyProductionBatch {s s' : ContractState}
    {sender batchId : Nat} (hinv : RegInv s)
    (h : verifyProductionBatch s sender batchId = .ok s') : RegInv s' := by
  obtain ⟨-, -, hex, hnv, hs'⟩ := verifyProductionBatch_ok h
  have hbf : ∀ b, s'.productionBatches b =
      if b = batchId then
        (if (s.productionBatches batchId).verificationCount + 1 ≥
            MIN_VERIFICATION_COUNT then
          { s.productionBatches batchId with
            verificationCount :=
              (s.productionBatches batchId).verificationCount + 1,
            isVerified := true }
        else
          { s.productionBatches batchId with
            verificationCount :=
              (s.productionBatches batchId).verificationCount + 1 })
      else s.productionBatches b := by
    intro b
    rw [hs']
    rfl
  have hnb : s'.nextBatchId = s.nextBatchId := by rw [hs']
  have hpos := hinv.nextBatchId_pos
  obtain ⟨e1, e2, e3⟩ := hinv.batch_id batchId hex
  refine regInv_update_batches hinv (by rw [hs']) (by rw [hs'])
    (by rw [hs']) (by rw [hs']) (by omega) ?_ ?_ ?_ ?_
  · intro b hb0
    rw [hbf b] at hb0 ⊢
    by_cases hbn : b = batchId
    · rw [if_pos hbn] at hb0
      by_cases hge : (s.productionBatches batchId).verificationCount + 1 ≥
          MIN_VERIFICATION_COUNT
      · rw [if_pos hge] at hb0
        exact absurd hb0 hex
      · rw [if_neg hge] at hb0
        exact absurd hb0 hex
    · rw [if_neg hbn] at hb0 ⊢
      exact hinv.batch_default b hb0
  · intro b hbne
    rw [hbf b] at hbne ⊢
    rw [hnb]
    by_cases hbn : b = batchId
    · subst hbn
      rw [if_pos rfl]
      by_cases hge : (s.productionBatches b).verificationCount + 1 ≥
          MIN_VERIFICATION_COUNT
      · rw [if_pos hge]
        exact ⟨e1, e2, e3⟩
      · rw [if_neg hge]
        exact ⟨e1, e2, e3⟩
    · rw [if_neg hbn] at hbne ⊢
      exact hinv.batch_id b hbne
  · intro b hbne
    rw [hbf b] at hbne ⊢
    by_cases hbn : b = batchId
    · rw [if_pos hbn]
      by_cases hge : (s.productionBatches batchId).verificationCount + 1 ≥
          MIN_VERIFICATION_COUNT
      · rw [if_pos hge]
        show 1 ≤ (s.productionBatches batchId).verificationCount + 1
        omega
      · rw [if_neg hge]
        show 1 ≤ (s.productionBatches batchId).verificationCount + 1
        omega
    · rw [if_neg hbn] at hbne ⊢
      exact hinv.batch_count_pos b hbne
  · intro b
    rw [hbf b]
    by_cases hbn : b = batchId
    · rw [if_pos hbn]
      by_cases hge : (s.productionBatches batchId).verificationCount + 1 ≥
          MIN_VERIFICATION_COUNT
      · rw [if_pos hge]
        show true = true ↔ MIN_VERIFICATION_COUNT ≤
          (s.productionBatches batchId).verificationCount + 1
        simpa using hge
      · rw [if_neg hge]
        show (s.productionBatches batchId).isVerified = true ↔
          MIN_VERIFICATION_COUNT ≤
            (s.productionBatches batchId).verificationCount + 1
        rw [hnv]
        simp
        omega
    · rw [if_neg hbn]
      exact hinv.batch_verified_iff b

theorem inv_issueCredit {s s' : ContractState}
    {sender timestamp toAddr producer amount productionDate ci : Nat}
    {pn rs loc md : String} (hinv : RegInv s)
    (h : issueCredit s sender timestamp toAddr producer pn amount
      productionDate rs loc ci md = .ok s') : RegInv s' := by
  obtain ⟨-, -, -, -, -, -, hs'⟩ := issueCredit_ok h
  have hpos := hinv.nextId_pos
  have hfresh : (s.credits s.nextId).id = 0 :=
    hinv.credit_fresh s.nextId (le_refl _)
  have hnotmem_oc : ∀ a, s.nextId ∉ s.ownerCredits a := by
    intro a hmem
    exact (hinv.owner_mem a s.nextId hmem).1 hfresh
  have hnotmem_pc : ∀ a, s.nextId ∉ s.producerCredits a := by
    intro a hmem
    exact (hinv.prod_mem a s.nextId hmem).1 hfresh
  have hc : ∀ j, s'.credits j =
      if j = s.nextId then
        { id := s.nextId, owner := toAddr, producer := producer,
          producerName := pn, amount := amount,
          productionDate := productionDate, renewableSource := rs,
          location := loc, carbonIntensity := ci,
          verificationStatus := .Pending, status := .Active,
          certifier := sender, certificationDate := timestamp,
          metadata := md, isRetired := false, retirementDate := 0,
          retirementReason := "" }
      else s.credits j := by
    intro j
    rw [hs']
    rfl
  have hocf : ∀ a, s'.ownerCredits a =
      if a = toAddr then s.ownerCredits toAddr ++ [s.nextId]
      else s.ownerCredits a := by
    intro a
    rw [hs']
    rfl
  have hpcf : ∀ a, s'.producerCredits a =
      if a = producer then s.producerCredits producer ++ [s.nextId]
      else s.producerCredits a := by
    intro a
    rw [hs']
    rfl
  have hni : s'.nextId = s.nextId + 1 := by rw [hs']
  have hnb : s'.nextBatchId = s.nextBatchId := by rw [hs']
  have hpb : s'.productionBatches = s.productionBatches := by rw [hs']
  constructor
  · rw [hni]; omega
  · rw [hnb]; exact hinv.nextBatchId_pos
  · intro j hj
    rw [hc j] at hj ⊢
    by_cases hji : j = s.nextId
    · rw [if_pos hji] at hj
      have hj' : s.nextId = 0 := hj
      omega
    · rw [if_neg hji] at hj ⊢
      exact hinv.credit_default j hj
  · intro j hj
    rw [hni, hc j]
    rw [hc j] at hj
    by_cases hji : j = s.nextId
    · subst hji
      rw [if_pos rfl]
      exact ⟨rfl, hpos, by omega⟩
    · rw [if_neg hji] at hj ⊢
      obtain ⟨e1, e2, e3⟩ := hinv.credit_id j hj
      exact ⟨e1, e2, by omega⟩
  · intro a j hmem
    rw [hocf a] at hmem
    rw [hc j]
    by_cases ha : a = toAddr
    · subst ha
      rw [if_pos rfl] at hmem
      rcases List.mem_append.mp hmem with hmem2 | hmem2
      · have hji : j ≠ s.nextId := by
          intro hji
          exact hnotmem_oc a (hji ▸ hmem2)
        rw [if_neg hji]
        exact hinv.owner_mem a j hmem2
      · have hji : j = s.nextId := List.mem_singleton.mp hmem2
        subst hji
        rw [if_pos rfl]
        refine ⟨?_, rfl⟩
        intro hcontra
        have hcontra2 : s.nextId = 0 := hcontra
        omega
    · rw [if_neg ha] at hmem
      have hji : j ≠ s.nextId := by
        intro hji
        exact hnotmem_oc a (hji ▸ hmem)
      rw [if_neg hji]
      exact hinv.owner_mem a j hmem
  · intro j hj
    rw [hc j] at hj
    rw [hc j]
    by_cases hji : j = s.nextId
    · subst hji
      rw [if_pos rfl]
      show (s'.ownerCredits toAddr).count s.nextId = 1
      rw [hocf toAddr, if_pos rfl, List.count_append]
      have h0 : (s.ownerCredits toAddr).count s.nextId = 0 :=
        List.count_eq_zero.mpr (hnotmem_oc toAddr)
      rw [h0]
      simp
    · rw [if_neg hji] at hj ⊢
      have a0 := (s.credits j).owner
      show (s'.ownerCredits ((s.credits j).owner)).count j = 1
      rw [hocf ((s.credits j).owner)]
      by_cases ha : (s.credits j).owner = toAddr
      · rw [if_pos ha, List.count_append]
        have h1 := hinv.owner_count j hj
        rw [ha] at h1
        rw [h1]
        simp [hji]
      · rw [if_neg ha]
        exact hinv.owner_count j hj
  · intro a j hmem
    rw [hpcf a] at hmem
    rw [hc j]
    by_cases ha : a = producer
    · subst ha
      rw [if_pos rfl] at hmem
      rcases List.mem_append.mp hmem with hmem2 | hmem2
      · have hji : j ≠ s.nextId := by
          intro hji
          exact hnotmem_pc a (hji ▸ hmem2)
        rw [if_neg hji]
        exact hinv.prod_mem a j hmem2
      · have hji : j = s.nextId := List.mem_singleton.mp hmem2
        subst hji
        rw [if_pos rfl]
        refine ⟨?_, rfl⟩
        intro hcontra
        have hcontra2 : s.nextId = 0 := hcontra
        omega
    · rw [if_neg ha] at hmem
      have hji : j ≠ s.nextId := by
        intro hji
        exact hnotmem_pc a (hji ▸ hmem)
      rw [if_neg hji]
      exact hinv.prod_mem a j hmem
  · intro j hj
    rw [hc j] at hj
    rw [hc j]
    by_cases hji : j = s.nextId
    · subst hji
      rw [if_pos rfl]
      show (s'.producerCredits producer).count s.nextId = 1
      rw [hpcf producer, if_pos rfl, List.count_append]
      have h0 : (s.producerCredits producer).count s.nextId = 0 :=
        List.count_eq_zero.mpr (hnotmem_pc producer)
      rw [h0]
      simp
    · rw [if_neg hji] at hj ⊢
      show (s'.producerCredits ((s.credits j).producer)).count j = 1
      rw [hpcf ((s.credits j).producer)]
      by_cases ha : (s.credits j).producer = producer
      · rw [if_pos ha, List.count_append]
        have h1 := hinv.prod_count j hj
        rw [ha] at h1
        rw [h1]
        simp [hji]
      · rw [if_neg ha]
        exact hinv.prod_count j hj
  · intro j hj
    rw [hc j] at hj ⊢
    by_cases hji : j = s.nextId
    · rw [if_pos hji] at hj
      simp at hj
    · rw [if_neg hji] at hj ⊢
      exact hinv.retired_status j hj
  · intro j hj
    rw [hc j] at hj ⊢
    by_cases hji : j = s.nextId
    · rw [if_pos hji] at hj
      simp at hj
    · rw [if_neg hji] at hj ⊢
      exact hinv.status_retired j hj
  · rw [hpb]; exact hinv.batch_default
  · rw [hpb, hnb]; exact hinv.batch_id
  · rw [hpb]; exact hinv.batch_count_pos
  · rw [hpb]; exact hinv.batch_verified_iff

theorem inv_transferCredit {s s' : ContractState} {sender id toAddr : Nat}
    (hinv : RegInv s) (h : transferCredit s sender id toAddr = .ok s') :
    RegInv s' := by
  obtain ⟨hex, -, -, -, -, -, hs'⟩ := transferCredit_ok h
  have hc : ∀ j, s'.credits j =
      if j = id then { s.credits id with owner := toAddr }
      else s.credits j := by
    intro j
    rw [hs']
    rfl
  have hocf : ∀ a, s'.ownerCredits a =
      if a = toAddr then
        (if toAddr = (s.credits id).owner then
          removeFromArray (s.ownerCredits ((s.credits id).owner)) id
        else s.ownerCredits toAddr) ++ [id]
      else if a = (s.credits id).owner then
        removeFromArray (s.ownerCredits ((s.credits id).owner)) id
      else s.ownerCredits a := by
    intro a
    rw [hs']
    rfl
  have hni : s'.nextId = s.nextId := by rw [hs']
  have hnb : s'.nextBatchId = s.nextBatchId := by rw [hs']
  have hpb : s'.productionBatches = s.productionBatches := by rw [hs']
  have hpc : s'.producerCredits = s.producerCredits := by rw [hs']
  have hcount1 : (s.ownerCredits ((s.credits id).owner)).count id = 1 :=
    hinv.owner_count id hex
  have hmem_id : id ∈ s.ownerCredits ((s.credits id).owner) := by
    rw [← List.count_pos_iff, hcount1]
    omega
  have hrem0 :
      (removeFromArray (s.ownerCredits ((s.credits id).owner)) id).count id
        = 0 := by
    rw [removeFromArray_count_self hmem_id, hcount1]
  have hrem_notmem :
      id ∉ removeFromArray (s.ownerCredits ((s.credits id).owner)) id :=
    List.count_eq_zero.mp hrem0
  constructor
  · rw [hni]; exact hinv.nextId_pos
  · rw [hnb]; exact hinv.nextBatchId_pos
  · intro j hj
    rw [hc j] at hj ⊢
    by_cases hji : j = id
    · rw [if_pos hji] at hj
      exact absurd hj hex
    · rw [if_neg hji] at hj ⊢
      exact hinv.credit_default j hj
  · intro j hj
    rw [hni, hc j]
    rw [hc j] at hj
    by_cases hji : j = id
    · subst hji
      rw [if_pos rfl]
      exact hinv.credit_id j hex
    · rw [if_neg hji] at hj ⊢
      exact hinv.credit_id j hj
  · intro a j hmem
    rw [hocf a] at hmem
    rw [hc j]
    by_cases ha : a = toAddr
    · subst ha
      rw [if_pos rfl] at hmem
      rcases List.mem_append.mp hmem with hmem2 | hmem2
      · by_cases haf : a = (s.credits id).owner
        · rw [if_pos haf] at hmem2
          have hj_in := mem_of_mem_removeFromArray hmem2
          have hji : j ≠ id := by
            intro hji
            exact hrem_notmem (hji ▸ hmem2)
          rw [if_neg hji]
          have hm := hinv.owner_mem _ j hj_in
          exact ⟨hm.1, by rw [hm.2, ← haf]⟩
        · rw [if_neg haf] at hmem2
          have hm := hinv.owner_mem _ j hmem2
          have hji : j ≠ id := by
            intro hji
            subst hji
            exact haf hm.2.symm
          rw [if_neg hji]
          exact hm
      · have hji := List.mem_singleton.mp hmem2
        subst hji
        rw [if_pos rfl]
        exact ⟨hex, rfl⟩
    · rw [if_neg ha] at hmem
      by_cases haf : a = (s.credits id).owner
      · rw [if_pos haf] at hmem
        have hj_in := mem_of_mem_removeFromArray hmem
        have hji : j ≠ id := by
          intro hji
          exact hrem_notmem (hji ▸ hmem)
        rw [if_neg hji]
        have hm := hinv.owner_mem _ j hj_in
        exact ⟨hm.1, by rw [hm.2, ← haf]⟩
      · rw [if_neg haf] at hmem
        have hm := hinv.owner_mem _ j hmem
        have hji : j ≠ id := by
          intro hji
          subst hji
          exact haf hm.2.symm
        rw [if_neg hji]
        exact hm
  · intro j hj
    rw [hc j] at hj
    by_cases hji : j = id
    · subst hji
      show (s'.ownerCredits ((s'.credits j).owner)).count j = 1
      rw [hc j, if_pos rfl]
      show (s'.ownerCredits toAddr).count j = 1
      rw [hocf toAddr, if_pos rfl, List.count_append]
      have hsing : List.count j [j] = 1 := by simp
      rw [hsing]
      by_cases haf : toAddr = (s.credits j).owner
      · rw [if_pos haf, hrem0]
      · rw [if_neg haf]
        rw [hinv.owner_count_other j toAddr hex haf]
    · rw [if_neg hji] at hj
      show (s'.ownerCredits ((s'.credits j).owner)).count j = 1
      rw [hc j, if_neg hji]
      rw [hocf ((s.credits j).owner)]
      by_cases ha : (s.credits j).owner = toAddr
      · rw [if_pos ha, List.count_append]
        have hsing : List.count j [id] = 0 := by simp [hji]
        rw [hsing]
        by_cases haf : toAddr = (s.credits id).owner
        · rw [if_pos haf, removeFromArray_count_ne _ hji, ← haf, ← ha]
          rw [hinv.owner_count j hj]
        · rw [if_neg haf, ← ha, hinv.owner_count j hj]
      · rw [if_neg ha]
        by_cases haf : (s.credits j).owner = (s.credits id).owner
        · rw [if_pos haf, removeFromArray_count_ne _ hji, ← haf]
          exact hinv.owner_count j hj
        · rw [if_neg haf]
          exact hinv.owner_count j hj
  · intro a j hmem
    rw [hpc] at hmem
    have hm := hinv.prod_mem a j hmem
    rw [hc j]
    by_cases hji : j = id
    · subst hji
      rw [if_pos rfl]
      exact hm
    · rw [if_neg hji]
      exact hm
  · intro j hj
    rw [hpc, hc j]
    rw [hc j] at hj
    by_cases hji : j = id
    · subst hji
      rw [if_pos rfl]
      exact hinv.prod_count j hex
    · rw [if_neg hji] at hj ⊢
      exact hinv.prod_count j hj
  · intro j hj
    rw [hc j] at hj ⊢
    by_cases hji : j = id
    · rw [if_pos hji] at hj ⊢
      exact hinv.retired_status id hj
    · rw [if_neg hji] at hj ⊢
      exact hinv.retired_status j hj
  · intro j hj
    rw [hc j] at hj ⊢
    by_cases hji : j = id
    · rw [if_pos hji] at hj ⊢
      exact hinv.status_retired id hj
    · rw [if_neg hji] at hj ⊢
      exact hinv.status_retired j hj
  · rw [hpb]; exact hinv.batch_default
  · rw [hpb, hnb]; exact hinv.batch_id
  · rw [hpb]; exact hinv.batch_count_pos
  · rw [hpb]; exact hinv.batch_verified_iff

theorem inv_step {s s' : ContractState} (hinv : RegInv s) (hs : Step s s') :
    RegInv s' := by
  cases hs with
  | setCertifierStep _ _ h => exact inv_setCertifier hinv h
  | registerAuditorStep _ _ _ _ h => exact inv_registerAuditor hinv h
  | deactivateAuditorStep _ _ h => exact inv_deactivateAuditor hinv h
  | suspendCreditStep _ _ _ h => exact inv_suspendCredit hinv h
  | issueCreditStep _ _ _ _ _ _ _ _ _ _ _ h => exact inv_issueCredit hinv h
  | verifyCreditStep _ _ _ _ _ h => exact inv_verifyCredit hinv h
  | createProductionBatchStep _ _ _ h =>
    exact inv_createProductionBatch hinv h
  | verifyProductionBatchStep _ _ h => exact inv_verifyProductionBatch hinv h
  | transferCreditStep _ _ _ h => exact inv_transferCredit hinv h
  | retireCreditStep _ _ _ _ h => exact inv_retireCredit hinv h

/-- Every reachable contract state satisfies the registry invariant. -/
theorem reachable_inv {s : ContractState} (h : Reachable s) : RegInv s := by
  induction h with
  | deployed d => exact inv_init d
  | step hr hs ih => exact inv_step ih hs

/-! ### A concrete execution used as witness material.

Deployer (= regulator = certifier) is address 1; auditor is address 2; the
credit owner is address 3; the producer is address 4. -/

def exOk (r : Except Err ContractState) : ContractState :=
  match r with
  | .ok s => s
  | .error _ => initState 0

/-- Deployed state. -/
def sc0 : ContractState := initState 1

/-- Auditor 2 registered. -/
def sc1 : ContractState := exOk (registerAuditor sc0 1 2 "A" "acc")

/-- Credit 1 issued: owner 3, producer 4, amount 1000, carbon intensity 25,
production date 90, at time 100. -/
def sc2 : ContractState :=
  exOk (issueCredit sc1 1 100 3 4 "P" 1000 90 "solar" "loc" 25 "meta")

/-- Credit 1 verified (decision `Verified`) by auditor 2 at time 101. -/
def sc3 : ContractState := exOk (verifyCredit sc2 2 101 1 .Verified "ok")

/-- Batch 1 created by auditor 2 over credit 1. -/
def sc4 : ContractState := exOk (createProductionBatch sc3 2 4 [1])

/-- Batch 1 verified again by the same auditor 2 who created it. -/
def sc5 : ContractState := exOk (verifyProductionBatch sc4 2 1)

/-- Credit 1 retired by its owner 3 at time 102. -/
def sc6 : ContractState := exOk (retireCredit sc3 3 102 1 "offset")

/-- The already-retired credit 1 suspended by the regulator. -/
def sc7 : ContractState := exOk (suspendCredit sc6 1 1 "fraud")

/-- Auditor 2 deactivated by the regulator (from `sc3`). -/
def sc8 : ContractState := exOk (deactivateAuditor sc3 1 2)

theorem sc1_ok : registerAuditor sc0 1 2 "A" "acc" = .ok sc1 := rfl

theorem sc2_ok :
    issueCredit sc1 1 100 3 4 "P" 1000 90 "solar" "loc" 25 "meta"
      = .ok sc2 := rfl

theorem sc3_ok : verifyCredit sc2 2 101 1 .Verified "ok" = .ok sc3 := rfl

theorem sc4_ok : createProductionBatch sc3 2 4 [1] = .ok sc4 := rfl

theorem sc5_ok : verifyProductionBatch sc4 2 1 = .ok sc5 := rfl

theorem sc6_ok : retireCredit sc3 3 102 1 "offset" = .ok sc6 := rfl

theorem sc7_ok : suspendCredit sc6 1 1 "fraud" = .ok sc7 := rfl

theorem sc8_ok : deactivateAuditor sc3 1 2 = .ok sc8 := rfl

theorem reach_sc0 : Reachable sc0 := Reachable.deployed 1

theorem reach_sc1 : Reachable sc1 :=
  Reachable.step reach_sc0 (Step.registerAuditorStep _ _ _ _ _ _ sc1_ok)

theorem reach_sc2 : Reachable sc2 :=
  Reachable.step reach_sc1
    (Step.issueCreditStep _ _ _ _ _ _ _ _ _ _ _ _ _ sc2_ok)

theorem reach_sc3 : Reachable sc3 :=
  Reachable.step reach_sc2 (Step.verifyCreditStep _ _ _ _ _ _ _ sc3_ok)

theorem reach_sc4 : Reachable sc4 :=
  Reachable.step reach_sc3 (Step.createProductionBatchStep _ _ _ _ _ sc4_ok)

theorem reach_sc5 : Reachable sc5 :=
  Reachable.step reach_sc4 (Step.verifyProductionBatchStep _ _ _ _ sc5_ok)

theorem reach_sc6 : Reachable sc6 :=
  Reachable.step reach_sc3 (Step.retireCreditStep _ _ _ _ _ _ sc6_ok)

theorem reach_sc7 : Reachable sc7 :=
  Reachable.step reach_sc6 (Step.suspendCreditStep _ _ _ _ _ sc7_ok)

/-! ### Claim theorems -/

/-- C2, counterexample: the biconditional `isRetired = true ↔ status =
Retired` fails on the code.  Credit 1 is issued, verified, retired (so
`isRetired = true`), and then `suspendCredit` — which has no
retirement guard and does not touch `isRetired` — moves its lifecycle
to `Suspended`, leaving `isRetired = true` while the status is no longer
`Retired`. -/
theorem retired_iff_status_counterexample :
    retireCredit sc3 3 102 1 "offset" = .ok sc6 ∧
    suspendCredit sc6 1 1 "fraud" = .ok sc7 ∧
    (sc7.credits 1).id ≠ 0 ∧
    (sc7.credits 1).isRetired = true ∧
    (sc7.credits 1).status ≠ CreditStatus.Retired :=
  ⟨rfl, rfl, by decide, rfl, by decide⟩

/-- C2 (amended): in every reachable state and for every existing credit,
`status = Retired` implies `isRetired = true`, and `isRetired = true`
implies the lifecycle status is `Retired` or `Suspended`.  The full
biconditional of the original claim fails exactly because `suspendCredit`
of an already-retired credit yields `isRetired = true` with status
`Suspended`. -/
theorem retired_flag_lifecycle_amended (s : ContractState)
    (hr : Reachable s) (id : Nat) (hex : (s.credits id).id ≠ 0) :
    ((s.credits id).status = CreditStatus.Retired →
      (s.credits id).isRetired = true) ∧
    ((s.credits id).isRetired = true →
      (s.credits id).status = CreditStatus.Retired ∨
      (s.credits id).status = CreditStatus.Suspended) :=
  have hinv := reachable_inv hr
  ⟨hinv.status_retired id, hinv.retired_status id⟩

/-- Witness for the amended C2 at the retired credit of the concrete run. -/
theorem retired_flag_lifecycle_amended_witness :
    ((sc6.credits 1).status = CreditStatus.Retired →
      (sc6.credits 1).isRetired = true) ∧
    ((sc6.credits 1).isRetired = true →
      (sc6.credits 1).status = CreditStatus.Retired ∨
      (sc6.credits 1).status = CreditStatus.Suspended) :=
  retired_flag_lifecycle_amended sc6 reach_sc6 1 (by decide)

/-- C3: with a caller holding the certifier or regulator role,
`issueCredit` fails exactly when the recipient is the zero identity, the
producer is the zero identity, the amount is zero, the carbon intensity
exceeds `MAX_CARBON_INTENSITY` (50; the boundary value 50 succeeds), or
the production date lies after the current time (the boundary value `now`
succeeds).  A failure returns only an error, so the store is unchanged by
construction of the embedding. -/
theorem issueCredit_failure_iff (s : ContractState)
    (sender timestamp toAddr producer amount productionDate ci : Nat)
    (pn rs loc md : String)
    (hrole : sender = s.certifier ∨ sender = s.regulator) :
    (∃ e, issueCredit s sender timestamp toAddr producer pn amount
      productionDate rs loc ci md = .error e) ↔
    (toAddr = 0 ∨ producer = 0 ∨ amount = 0 ∨
      MAX_CARBON_INTENSITY < ci ∨ timestamp < productionDate) := by
  unfold issueCredit
  rw [if_neg (not_not.mpr hrole)]
  by_cases h1 : toAddr = 0
  · rw [if_pos h1]
    exact ⟨fun _ => Or.inl h1, fun _ => ⟨_, rfl⟩⟩
  rw [if_neg h1]
  by_cases h2 : producer = 0
  · rw [if_pos h2]
    exact ⟨fun _ => Or.inr (Or.inl h2), fun _ => ⟨_, rfl⟩⟩
  rw [if_neg h2]
  by_cases h3 : amount = 0
  · rw [if_pos h3]
    exact ⟨fun _ => Or.inr (Or.inr (Or.inl h3)), fun _ => ⟨_, rfl⟩⟩
  rw [if_neg h3]
  by_cases h4 : ci > MAX_CARBON_INTENSITY
  · rw [if_pos h4]
    exact ⟨fun _ => Or.inr (Or.inr (Or.inr (Or.inl h4))), fun _ => ⟨_, rfl⟩⟩
  rw [if_neg h4]
  by_cases h5 : productionDate > timestamp
  · rw [if_pos h5]
    exact ⟨fun _ => Or.inr (Or.inr (Or.inr (Or.inr h5))), fun _ => ⟨_, rfl⟩⟩
  rw [if_neg h5]
  constructor
  · rintro ⟨e, he⟩
    cases he
  · intro hcond
    exfalso
    rcases hcond with hh | hh | hh | hh | hh <;> omega

/-- Witness for C3 at boundary values: carbon intensity exactly 50 and
production date exactly the current time, which must succeed. -/
theorem issueCredit_failure_iff_witness :
    ((∃ e, issueCredit sc1 1 100 3 4 "P" 1000 100 "s" "l" 50 "m"
      = .error e) ↔
    ((3 : Nat) = 0 ∨ (4 : Nat) = 0 ∨ (1000 : Nat) = 0 ∨
      MAX_CARBON_INTENSITY < 50 ∨ (100 : Nat) < 100)) :=
  issueCredit_failure_iff sc1 1 100 3 4 1000 100 50 "P" "s" "l" "m"
    (Or.inl rfl)

/-- C5: credit identifiers are assigned sequentially from 1.  In every
reachable state, 0 identifies no credit and every existing credit's key
equals its stored id, lies in `[1, nextId)`; a successful issuance stores
the fresh id `nextId` (previously unused), bumps the counter by one and
touches no other credit.  A failed issuance returns only an error and so
consumes no identifier. -/
theorem credit_id_discipline (s : ContractState) (hr : Reachable s) :
    (s.credits 0).id = 0 ∧
    (∀ id, (s.credits id).id ≠ 0 →
      (s.credits id).id = id ∧ 1 ≤ id ∧ id < s.nextId) ∧
    (∀ s' sender timestamp toAddr producer amount productionDate ci
        (pn rs loc md : String),
      issueCredit s sender timestamp toAddr producer pn amount
        productionDate rs loc ci md = .ok s' →
      (s.credits s.nextId).id = 0 ∧
      (s'.credits s.nextId).id = s.nextId ∧
      s'.nextId = s.nextId + 1 ∧
      ∀ j, j ≠ s.nextId → s'.credits j = s.credits j) := by
  have hinv := reachable_inv hr
  refine ⟨?_, hinv.credit_id, ?_⟩
  · by_contra h0
    have := (hinv.credit_id 0 h0).2.1
    omega
  · intro s' sender timestamp toAddr producer amount productionDate ci
      pn rs loc md hok
    obtain ⟨-, -, -, -, -, -, hs'⟩ := issueCredit_ok hok
    refine ⟨hinv.credit_fresh s.nextId (le_refl _), ?_, by rw [hs'], ?_⟩
    · rw [hs']
      show (upd s.credits s.nextId _ s.nextId).id = s.nextId
      rw [upd_same]
    · intro j hj
      rw [hs']
      show upd s.credits s.nextId _ j = s.credits j
      rw [upd_ne _ _ _ hj]

/-- Witness for C5 on the concrete issuance step from `sc1` to `sc2`. -/
theorem credit_id_discipline_witness :
    (sc1.credits sc1.nextId).id = 0 ∧
    (sc2.credits sc1.nextId).id = sc1.nextId ∧
    sc2.nextId = sc1.nextId + 1 ∧
    ∀ j, j ≠ sc1.nextId → sc2.credits j = sc1.credits j :=
  (credit_id_discipline sc1 reach_sc1).2.2 sc2 1 100 3 4 1000 90 25
    "P" "solar" "loc" "meta" sc2_ok

/-- C10: in every reachable state, an existing credit's id occurs exactly
once in its current owner's owned-index and never in any other identity's
owned-index; and after any further successful operation (issuance,
transfer — including a self-transfer —, retirement, suspension, …) the
same multiplicity discipline holds again. -/
theorem owner_index_multiplicity (s : ContractState) (hr : Reachable s) :
    (∀ id, (s.credits id).id ≠ 0 →
      (s.ownerCredits ((s.credits id).owner)).count id = 1 ∧
      ∀ a, a ≠ (s.credits id).owner → (s.ownerCredits a).count id = 0) ∧
    (∀ s', Step s s' → ∀ id, (s'.credits id).id ≠ 0 →
      (s'.ownerCredits ((s'.credits id).owner)).count id = 1 ∧
      ∀ a, a ≠ (s'.credits id).owner → (s'.ownerCredits a).count id = 0) := by
  have hinv := reachable_inv hr
  refine ⟨?_, ?_⟩
  · intro id hex
    exact ⟨hinv.owner_count id hex,
      fun a ha => hinv.owner_count_other id a hex ha⟩
  · intro s' hs id hex
    have hinv' := inv_step hinv hs
    exact ⟨hinv'.owner_count id hex,
      fun a ha => hinv'.owner_count_other id a hex ha⟩

/-- Witness for C10 at the concrete state `sc3`, including the
transfer step to owner 5. -/
theorem owner_index_multiplicity_witness :
    (sc3.ownerCredits ((sc3.credits 1).owner)).count 1 = 1 ∧
    ∀ a, a ≠ (sc3.credits 1).owner → (sc3.ownerCredits a).count 1 = 0 :=
  (owner_index_multiplicity sc3 reach_sc3).1 1 (by decide)

theorem reachable_of_steps {s t : ContractState} (hr : Reachable s)
    (h : Relation.ReflTransGen Step s t) : Reachable t := by
  induction h with
  | refl => exact hr
  | tail hab hbc ih => exact Reachable.step ih hbc

theorem vs_ne_pending_exists {s : ContractState} (hinv : RegInv s) (id : Nat)
    (hnp : (s.credits id).verificationStatus ≠ VerificationStatus.Pending) :
    (s.credits id).id ≠ 0 := by
  intro h0
  rw [hinv.credit_default id h0] at hnp
  exact hnp rfl

/-- No operation changes the verification state of a credit that has
already left `Pending`. -/
theorem verificationStatus_step_fixed {s t : ContractState}
    (hinv : RegInv s) {id : Nat}
    (hnp : (s.credits id).verificationStatus ≠ VerificationStatus.Pending)
    (hs : Step s t) :
    (t.credits id).verificationStatus = (s.credits id).verificationStatus := by
  cases hs with
  | setCertifierStep _ _ h =>
    obtain ⟨-, -, rfl⟩ := setCertifier_ok h
    rfl
  | registerAuditorStep _ _ _ _ h =>
    obtain ⟨-, -, -, rfl⟩ := registerAuditor_ok h
    rfl
  | deactivateAuditorStep _ _ h =>
    obtain ⟨-, -, rfl⟩ := deactivateAuditor_ok h
    rfl
  | suspendCreditStep sender id0 reason h =>
    obtain ⟨-, -, hs'⟩ := suspendCredit_ok h
    rw [hs']
    show (upd s.credits id0 _ id).verificationStatus = _
    by_cases hji : id = id0
    · subst hji
      rw [upd_same]
    · rw [upd_ne _ _ _ hji]
  | issueCreditStep _ _ _ _ _ _ _ _ _ _ _ h =>
    obtain ⟨-, -, -, -, -, -, hs'⟩ := issueCredit_ok h
    have hexists := vs_ne_pending_exists hinv id hnp
    have hlt := (hinv.credit_id id hexists).2.2
    have hne : id ≠ s.nextId := by omega
    rw [hs']
    show (upd s.credits s.nextId _ id).verificationStatus = _
    rw [upd_ne _ _ _ hne]
  | verifyCreditStep sender timestamp id0 status0 notes h =>
    obtain ⟨-, -, -, -, hpend, hs'⟩ := verifyCredit_ok h
    by_cases hji : id = id0
    · subst hji
      exact absurd hpend hnp
    · rw [hs']
      show (upd s.credits id0 _ id).verificationStatus = _
      rw [upd_ne _ _ _ hji]
  | createProductionBatchStep _ _ _ h =>
    obtain ⟨-, -, -, -, -, rfl⟩ := createProductionBatch_ok h
    rfl
  | verifyProductionBatchStep _ _ h =>
    obtain ⟨-, -, -, -, rfl⟩ := verifyProductionBatch_ok h
    rfl
  | transferCreditStep sender id0 toAddr h =>
    obtain ⟨-, -, -, -, -, -, hs'⟩ := transferCredit_ok h
    rw [hs']
    show (upd s.credits id0 _ id).verificationStatus = _
    by_cases hji : id = id0
    · subst hji
      rw [upd_same]
    · rw [upd_ne _ _ _ hji]
  | retireCreditStep sender timestamp id0 reason h =>
    obtain ⟨-, -, -, -, -, hs'⟩ := retireCredit_ok h
    rw [hs']
    show (upd s.credits id0 _ id).verificationStatus = _
    by_cases hji : id = id0
    · subst hji
      rw [upd_same]
    · rw [upd_ne _ _ _ hji]

theorem verificationStatus_steps_fixed {s t : ContractState}
    (hr : Reachable s) (hst : Relation.ReflTransGen Step s t) (id : Nat)
    (hnp : (s.credits id).verificationStatus ≠ VerificationStatus.Pending) :
    (t.credits id).verificationStatus = (s.credits id).verificationStatus := by
  induction hst with
  | refl => rfl
  | tail hab hbc ih =>
    rename_i b c
    have hrb := reachable_of_steps hr hab
    have hnpb : (b.credits id).verificationStatus ≠
        VerificationStatus.Pending := by
      rw [ih]
      exact hnp
    rw [verificationStatus_step_fixed (reachable_inv hrb) hnpb hbc]
    exact ih

/-- C4: once a successful `verifyCredit` has set a credit's verification
state to `Verified` or `Rejected`, that state never changes again under
any sequence of further operations, and every subsequent `verifyCredit`
call on the same id by any active auditor, with any decision, fails with
an `InvalidStateTransition` error (the source reverts with "Credit already
verified" — or with "Credit has been retired" if the credit was retired in
the meantime, also an invalid-state-transition failure). -/
theorem verifyCredit_terminal (s s1 : ContractState) (hr : Reachable s)
    (sender timestamp id : Nat) (decision : VerificationStatus)
    (notes : String)
    (hok : verifyCredit s sender timestamp id decision notes = .ok s1)
    (hdec : decision ≠ VerificationStatus.Pending) :
    (s1.credits id).verificationStatus = decision ∧
    (∀ t, Relation.ReflTransGen Step s1 t →
      (t.credits id).verificationStatus = decision) ∧
    (∀ sender2 timestamp2 decision2 (notes2 : String),
      s1.isAuditor sender2 = true → (s1.auditors sender2).isActive = true →
      verifyCredit s1 sender2 timestamp2 id decision2 notes2 =
        .error Err.invalidStateTransition) := by
  have hvs : (s1.credits id).verificationStatus = decision := by
    obtain ⟨-, -, -, -, -, hs'⟩ := verifyCredit_ok hok
    rw [hs']
    show (upd s.credits id _ id).verificationStatus = decision
    rw [upd_same]
  have hr1 : Reachable s1 :=
    Reachable.step hr (Step.verifyCreditStep _ _ _ _ _ _ _ hok)
  have hnp1 : (s1.credits id).verificationStatus ≠
      VerificationStatus.Pending := by
    rw [hvs]
    exact hdec
  refine ⟨hvs, ?_, ?_⟩
  · intro t hst
    rw [verificationStatus_steps_fixed hr1 hst id hnp1]
    exact hvs
  · intro sender2 timestamp2 decision2 notes2 hia hact
    have hinv1 := reachable_inv hr1
    have hexists := vs_ne_pending_exists hinv1 id hnp1
    unfold verifyCredit
    rw [if_neg (not_not.mpr ⟨hia, hact⟩), if_neg hexists]
    by_cases hret : (s1.credits id).isRetired = true
    · rw [if_pos hret]
    · rw [if_neg hret, if_pos hnp1]

/-- Witness for C4: in the concrete run, credit 1 is verified as
`Verified`; a second verification attempt by the same active auditor with
a different decision fails with `InvalidStateTransition`. -/
theorem verifyCredit_terminal_witness :
    verifyCredit sc3 2 103 1 VerificationStatus.Rejected "again" =
      .error Err.invalidStateTransition :=
  (verifyCredit_terminal sc2 sc3 reach_sc2 2 101 1 .Verified "ok" sc3_ok
    (by decide)).2.2 2 103 .Rejected "again" rfl rfl

/-- No operation un-verifies a production batch: once `isVerified` is
true it stays true under every step. -/
theorem batchVerified_step_mono {s t : ContractState} (hinv : RegInv s)
    (hs : Step s t) (b : Nat)
    (hv : (s.productionBatches b).isVerified = true) :
    (t.productionBatches b).isVerified = true := by
  cases hs with
  | setCertifierStep _ _ h =>
    obtain ⟨-, -, rfl⟩ := setCertifier_ok h
    exact hv
  | registerAuditorStep _ _ _ _ h =>
    obtain ⟨-, -, -, rfl⟩ := registerAuditor_ok h
    exact hv
  | deactivateAuditorStep _ _ h =>
    obtain ⟨-, -, rfl⟩ := deactivateAuditor_ok h
    exact hv
  | suspendCreditStep _ _ _ h =>
    obtain ⟨-, -, rfl⟩ := suspendCredit_ok h
    exact hv
  | issueCreditStep _ _ _ _ _ _ _ _ _ _ _ h =>
    obtain ⟨-, -, -, -, -, -, rfl⟩ := issueCredit_ok h
    exact hv
  | verifyCreditStep _ _ _ _ _ h =>
    obtain ⟨-, -, -, -, -, rfl⟩ := verifyCredit_ok h
    exact hv
  | createProductionBatchStep _ _ _ h =>
    obtain ⟨-, -, -, -, -, hs'⟩ := createProductionBatch_ok h
    have hbne : (s.productionBatches b).batchId ≠ 0 := by
      intro h0
      rw [hinv.batch_default b h0] at hv
      exact absurd hv (by decide)
    have hlt := (hinv.batch_id b hbne).2.2
    have hne : b ≠ s.nextBatchId := by omega
    rw [hs']
    show (upd s.productionBatches s.nextBatchId _ b).isVerified = true
    rw [upd_ne _ _ _ hne]
    exact hv
  | verifyProductionBatchStep sender batchId h =>
    obtain ⟨-, -, -, hnv, hs'⟩ := verifyProductionBatch_ok h
    have hne : b ≠ batchId := by
      intro he
      rw [he] at hv
      rw [hv] at hnv
      cases hnv
    rw [hs']
    show (upd s.productionBatches batchId _ b).isVerified = true
    rw [upd_ne _ _ _ hne]
    exact hv
  | transferCreditStep _ _ _ h =>
    obtain ⟨-, -, -, -, -, -, rfl⟩ := transferCredit_ok h
    exact hv
  | retireCreditStep _ _ _ _ h =>
    obtain ⟨-, -, -, -, -, rfl⟩ := retireCredit_ok h
    exact hv

/-- C1, counterexample: the verification count of a batch does not count
*distinct* auditors.  Auditor 2 creates batch 1 (count 1) and then the
very same auditor verifies the batch; under the claim this already-counted
identity must not advance the count toward quorum, yet the code increments
the count to 2 and flips `isVerified` to true with only one distinct
auditor involved. -/
theorem batch_quorum_distinct_counterexample :
    createProductionBatch sc3 2 4 [1] = .ok sc4 ∧
    (sc4.productionBatches 1).verificationCount = 1 ∧
    (sc4.productionBatches 1).isVerified = false ∧
    verifyProductionBatch sc4 2 1 = .ok sc5 ∧
    (sc5.productionBatches 1).verificationCount = 2 ∧
    (sc5.productionBatches 1).isVerified = true :=
  ⟨rfl, rfl, rfl, rfl, rfl, rfl⟩

/-- C1 (amended): `verifyProductionBatch` flips `isVerified` from false to
true exactly when `verificationCount` — which counts the creation plus
every successful verification call, without de-duplicating auditor
identities, so a repeated call by an already-counted auditor (including
the creator) does advance it — reaches `MIN_VERIFICATION_COUNT`; and once
true, the flag never flips back under any operation. -/
theorem verifyProductionBatch_flip_amended (s : ContractState)
    (hr : Reachable s) :
    (∀ s' sender batchId,
      verifyProductionBatch s sender batchId = .ok s' →
      (s.productionBatches batchId).isVerified = false ∧
      (s'.productionBatches batchId).verificationCount =
        (s.productionBatches batchId).verificationCount + 1 ∧
      ((s'.productionBatches batchId).isVerified = true ↔
        MIN_VERIFICATION_COUNT ≤
          (s'.productionBatches batchId).verificationCount)) ∧
    (∀ s', Step s s' → ∀ b, (s.productionBatches b).isVerified = true →
      (s'.productionBatches b).isVerified = true) := by
  have hinv := reachable_inv hr
  refine ⟨?_, fun s' hs b hv => batchVerified_step_mono hinv hs b hv⟩
  intro s' sender batchId hok
  obtain ⟨-, -, hex, hnv, hs'⟩ := verifyProductionBatch_ok hok
  have hinv' := inv_verifyProductionBatch hinv hok
  have hcount : (s'.productionBatches batchId).verificationCount =
      (s.productionBatches batchId).verificationCount + 1 := by
    rw [hs']
    show (upd s.productionBatches batchId _ batchId).verificationCount = _
    rw [upd_same]
    by_cases hge : (s.productionBatches batchId).verificationCount + 1 ≥
        MIN_VERIFICATION_COUNT
    · rw [if_pos hge]
    · rw [if_neg hge]
  exact ⟨hnv, hcount, hinv'.batch_verified_iff batchId⟩

/-- Witness for the amended C1 on the concrete run: the self-verification
step raises the count from 1 to 2 and the flag flips exactly at the
threshold. -/
theorem verifyProductionBatch_flip_amended_witness :
    (sc4.productionBatches 1).isVerified = false ∧
    (sc5.productionBatches 1).verificationCount =
      (sc4.productionBatches 1).verificationCount + 1 ∧
    ((sc5.productionBatches 1).isVerified = true ↔
      MIN_VERIFICATION_COUNT ≤
        (sc5.productionBatches 1).verificationCount) :=
  (verifyProductionBatch_flip_amended sc4 reach_sc4).1 sc5 2 1 sc5_ok

/-- C8, counterexample: `deactivateAuditor` clears the `isAuditor` flag as
well, so after deactivating auditor 2 (whose historical verification count
is 1) the getter fails with a not-found error instead of succeeding, and a
subsequent `registerAuditor` for the same identity succeeds — overwriting
the record and resetting the historical counter to 0 — instead of failing
with an already-registered error. -/
theorem deactivateAuditor_counterexample :
    (sc3.auditors 2).verificationCount = 1 ∧
    deactivateAuditor sc3 1 2 = .ok sc8 ∧
    getAuditor sc8 2 = .error Err.notFound ∧
    (∃ s9, registerAuditor sc8 1 2 "B" "acc2" = .ok s9 ∧
      (s9.auditors 2).verificationCount = 0) :=
  ⟨rfl, rfl, rfl, ⟨_, rfl, rfl⟩⟩

/-- C8 (amended): after a successful `deactivateAuditor(a)` the record in
the `auditors` store is retained with `isActive = false` and its historical
counters intact, but the `isAuditor` flag is cleared; consequently
`getAuditor(a)` fails with a not-found error, and a subsequent
`registerAuditor(a, …)` by the regulator succeeds, overwriting the record
and resetting `verificationCount` to 0. -/
theorem deactivateAuditor_soft_delete (s s' : ContractState)
    (sender a : Nat) (ha : a ≠ 0)
    (hok : deactivateAuditor s sender a = .ok s') :
    s'.auditors a = { s.auditors a with isActive := false } ∧
    s'.isAuditor a = false ∧
    getAuditor s' a = .error Err.notFound ∧
    (∀ name acc : String, ∃ s'',
      registerAuditor s' sender a name acc = .ok s'' ∧
      s''.auditors a = {
        auditorAddress := a, name := name,
        accreditation := acc, isActive := true, verificationCount := 0,
        lastVerification := 0 }) := by
  obtain ⟨hreg, hia, hs'⟩ := deactivateAuditor_ok hok
  have h1 : s'.auditors a = { s.auditors a with isActive := false } := by
    rw [hs']
    show upd s.auditors a _ a = _
    rw [upd_same]
  have h2 : s'.isAuditor a = false := by
    rw [hs']
    show upd s.isAuditor a false a = false
    rw [upd_same]
  have hregulator : s'.regulator = s.regulator := by rw [hs']
  refine ⟨h1, h2, ?_, ?_⟩
  · unfold getAuditor
    rw [if_pos]
    intro hcontra
    rw [h2] at hcontra
    cases hcontra
  · intro name acc
    unfold registerAuditor
    rw [if_neg (not_not.mpr (by rw [hregulator]; exact hreg)),
      if_neg ha, if_neg (by intro hcontra; rw [h2] at hcontra; cases hcontra)]
    refine ⟨_, rfl, ?_⟩
    show upd s'.auditors a _ a = _
    rw [upd_same]

/-- Witness for the amended C8 on the concrete run. -/
theorem deactivateAuditor_soft_delete_witness :
    sc8.auditors 2 = { sc3.auditors 2 with isActive := false } ∧
    sc8.isAuditor 2 = false ∧
    getAuditor sc8 2 = .error Err.notFound := by
  have h := deactivateAuditor_soft_delete sc3 sc8 1 2 (by decide) sc8_ok
  exact ⟨h.1, h.2.1, h.2.2.1⟩

/-- C9: `createProductionBatch` does not reject duplicate credit ids: if
every entry of the list references a credit of the stated producer in
`Verified` state, the call succeeds even when entries repeat, and the
frozen `totalAmount` sums the list with multiplicity — an id occurring
`k` times contributes `k` times its amount. -/
theorem createProductionBatch_duplicates (s : ContractState)
    (sender producer : Nat) (ids : List Nat)
    (haud : s.isAuditor sender = true)
    (hact : (s.auditors sender).isActive = true)
    (hp : producer ≠ 0) (hne : ids ≠ [])
    (hvalid : ∀ i ∈ ids, (s.credits i).producer = producer ∧
      (s.credits i).verificationStatus = VerificationStatus.Verified) :
    ∃ s', createProductionBatch s sender producer ids = .ok s' ∧
      (s'.productionBatches s.nextBatchId).totalAmount =
        (ids.map (fun i => (s.credits i).amount)).sum ∧
      (s'.productionBatches s.nextBatchId).totalAmount =
        ∑ j in ids.toFinset, ids.count j * (s.credits j).amount := by
  have htot := batchTotal_ok_of_valid hvalid
  unfold createProductionBatch
  rw [if_neg (not_not.mpr ⟨haud, hact⟩), if_neg hp, if_neg hne, htot]
  refine ⟨_, rfl, ?_, ?_⟩
  · show (upd s.productionBatches s.nextBatchId _ s.nextBatchId).totalAmount
      = _
    rw [upd_same]
  · show (upd s.productionBatches s.nextBatchId _ s.nextBatchId).totalAmount
      = _
    rw [upd_same]
    show (ids.map (fun i => (s.credits i).amount)).sum = _
    rw [Finset.sum_list_map_count]
    simp [smul_eq_mul]

/-- Witness for C9: batching credit 1 twice succeeds and freezes twice its
amount (2 × 1000). -/
theorem createProductionBatch_duplicates_witness :
    ∃ s', createProductionBatch sc3 2 4 [1, 1] = .ok s' ∧
      (s'.productionBatches sc3.nextBatchId).totalAmount =
        ([1, 1].map (fun i => (sc3.credits i).amount)).sum ∧
      (s'.productionBatches sc3.nextBatchId).totalAmount =
        ∑ j in ([1, 1] : List Nat).toFinset,
          ([1, 1] : List Nat).count j * (sc3.credits j).amount :=
  createProductionBatch_duplicates sc3 2 4 [1, 1] rfl rfl (by decide)
    (by decide) (by decide)

/-- Credit 1 transferred from owner 3 to identity 5 (from `sc3`). -/
def sc9 : ContractState := exOk (transferCredit sc3 3 1 5)

theorem sc9_ok : transferCredit sc3 3 1 5 = .ok sc9 := rfl

/-- C6: a successful `transferCredit(id, toAddr)` updates the owner field,
removes the id from the old owner's owned-index (swap-and-pop) and appends
it to the new owner's owned-index, and changes nothing else: all other
fields of the credit, every other credit, the producer-index, the auditor
records and the batch store are untouched.  When the recipient differs
from the old owner, membership moves exactly: the id disappears from the
old owner's index and appears exactly once in the new owner's. -/
theorem transferCredit_frame (s s' : ContractState) (hr : Reachable s)
    (sender id toAddr : Nat)
    (hok : transferCredit s sender id toAddr = .ok s') :
    s'.credits id = { s.credits id with owner := toAddr } ∧
    (∀ j, j ≠ id → s'.credits j = s.credits j) ∧
    s'.producerCredits = s.producerCredits ∧
    s'.auditors = s.auditors ∧
    s'.isAuditor = s.isAuditor ∧
    s'.productionBatches = s.productionBatches ∧
    s'.nextId = s.nextId ∧ s'.nextBatchId = s.nextBatchId ∧
    s'.regulator = s.regulator ∧ s'.certifier = s.certifier ∧
    s'.ownerCredits toAddr =
      (if toAddr = (s.credits id).owner then
        removeFromArray (s.ownerCredits ((s.credits id).owner)) id
      else s.ownerCredits toAddr) ++ [id] ∧
    (toAddr ≠ (s.credits id).owner →
      s'.ownerCredits ((s.credits id).owner) =
        removeFromArray (s.ownerCredits ((s.credits id).owner)) id) ∧
    (∀ a, a ≠ toAddr → a ≠ (s.credits id).owner →
      s'.ownerCredits a = s.ownerCredits a) ∧
    (toAddr ≠ (s.credits id).owner →
      id ∉ s'.ownerCredits ((s.credits id).owner) ∧
      (s'.ownerCredits toAddr).count id = 1) := by
  have hinv := reachable_inv hr
  obtain ⟨hex, -, -, -, -, -, hs'⟩ := transferCredit_ok hok
  have hcount1 : (s.ownerCredits ((s.credits id).owner)).count id = 1 :=
    hinv.owner_count id hex
  have hmem_id : id ∈ s.ownerCredits ((s.credits id).owner) := by
    rw [← List.count_pos_iff, hcount1]
    omega
  have hrem0 :
      (removeFromArray (s.ownerCredits ((s.credits id).owner)) id).count id
        = 0 := by
    rw [removeFromArray_count_self hmem_id, hcount1]
  have hoc_to : s'.ownerCredits toAddr =
      (if toAddr = (s.credits id).owner then
        removeFromArray (s.ownerCredits ((s.credits id).owner)) id
      else s.ownerCredits toAddr) ++ [id] := by
    rw [hs']
    show upd _ toAddr _ toAddr = _
    rw [upd_same, upd_apply]
  have hoc_from : toAddr ≠ (s.credits id).owner →
      s'.ownerCredits ((s.credits id).owner) =
        removeFromArray (s.ownerCredits ((s.credits id).owner)) id := by
    intro htf
    rw [hs']
    show upd _ toAddr _ ((s.credits id).owner) = _
    rw [upd_ne _ _ _ (Ne.symm htf), upd_same]
  refine ⟨?_, ?_, by rw [hs'], by rw [hs'], by rw [hs'], by rw [hs'],
    by rw [hs'], by rw [hs'], by rw [hs'], by rw [hs'],
    hoc_to, hoc_from, ?_, ?_⟩
  · rw [hs']
    show upd s.credits id _ id = _
    rw [upd_same]
  · intro j hj
    rw [hs']
    show upd s.credits id _ j = _
    rw [upd_ne _ _ _ hj]
  · intro a hat haf
    rw [hs']
    show upd _ toAddr _ a = _
    rw [upd_ne _ _ _ hat, upd_ne _ _ _ haf]
  · intro htf
    constructor
    · rw [hoc_from htf]
      exact List.count_eq_zero.mp hrem0
    · rw [hoc_to, if_neg htf, List.count_append]
      rw [hinv.owner_count_other id toAddr hex htf]
      simp

/-- Witness for C6 on the concrete run: owner 3 transfers credit 1 to
identity 5. -/
theorem transferCredit_frame_witness :
    sc9.credits 1 = { sc3.credits 1 with owner := 5 } ∧
    sc9.producerCredits = sc3.producerCredits ∧
    (5 ≠ (sc3.credits 1).owner →
      1 ∉ sc9.ownerCredits ((sc3.credits 1).owner) ∧
      (sc9.ownerCredits 5).count 1 = 1) := by
  have h := transferCredit_frame sc3 sc9 reach_sc3 3 1 5 sc9_ok
  exact ⟨h.1, h.2.2.1, h.2.2.2.2.2.2.2.2.2.2.2.2.2⟩

theorem foldl_total (s : ContractState) (l : List Nat) (init : Nat) :
    l.foldl (fun total id =>
      if (s.credits id).status = CreditStatus.Active ∧
          (s.credits id).isRetired = false
      then total + (s.credits id).amount else total) init =
    init + (l.map (fun id =>
      if (s.credits id).status = CreditStatus.Active ∧
          (s.credits id).isRetired = false
      then (s.credits id).amount else 0)).sum := by
  induction l generalizing init with
  | nil => simp
  | cons x xs ih =>
    simp only [List.foldl_cons, List.map_cons, List.sum_cons]
    rw [ih]
    by_cases hx : (s.credits x).status = CreditStatus.Active ∧
        (s.credits x).isRetired = false
    · rw [if_pos hx, if_pos hx]
      omega
    · rw [if_neg hx, if_neg hx]
      omega

theorem producerCredits_nodup {s : ContractState} (hinv : RegInv s)
    (p : Nat) : (s.producerCredits p).Nodup := by
  rw [List.nodup_iff_count_le_one]
  intro a
  by_cases hmem : a ∈ s.producerCredits p
  · have hm := hinv.prod_mem p a hmem
    have hcount := hinv.prod_count a hm.1
    rw [hm.2] at hcount
    omega
  · rw [List.count_eq_zero.mpr hmem]
    omega

theorem producerCredits_toFinset {s : ContractState} (hinv : RegInv s)
    (p : Nat) :
    (s.producerCredits p).toFinset =
      (Finset.range s.nextId).filter
        (fun id => (s.credits id).id ≠ 0 ∧ (s.credits id).producer = p) := by
  ext a
  simp only [List.mem_toFinset, Finset.mem_filter, Finset.mem_range]
  constructor
  · intro hmem
    have hm := hinv.prod_mem p a hmem
    exact ⟨(hinv.credit_id a hm.1).2.2, hm.1, hm.2⟩
  · rintro ⟨hlt, hex, hp⟩
    have hcount := hinv.prod_count a hex
    rw [hp] at hcount
    rw [← List.count_pos_iff]
    omega

/-- C7: in every reachable state, `getTotalCreditsByProducer(p)` equals
the sum of `amount` over all existing credits whose producer is `p`, whose
lifecycle status is `Active`, and whose `isRetired` flag is false; and a
successful transfer leaves this total unchanged. -/
theorem getTotalCreditsByProducer_correct (s : ContractState)
    (hr : Reachable s) (p : Nat) :
    (getTotalCreditsByProducer s p =
      ∑ id in (Finset.range s.nextId).filter
        (fun id => (s.credits id).id ≠ 0 ∧ (s.credits id).producer = p ∧
          (s.credits id).status = CreditStatus.Active ∧
          (s.credits id).isRetired = false),
        (s.credits id).amount) ∧
    (∀ s' sender id toAddr, transferCredit s sender id toAddr = .ok s' →
      getTotalCreditsByProducer s' p = getTotalCreditsByProducer s p) := by
  have hinv := reachable_inv hr
  constructor
  · unfold getTotalCreditsByProducer
    rw [foldl_total s _ 0, Nat.zero_add,
      ← List.sum_toFinset _ (producerCredits_nodup hinv p),
      producerCredits_toFinset hinv p]
    have hsplit : (Finset.range s.nextId).filter
        (fun id => (s.credits id).id ≠ 0 ∧ (s.credits id).producer = p ∧
          (s.credits id).status = CreditStatus.Active ∧
          (s.credits id).isRetired = false) =
        ((Finset.range s.nextId).filter
          (fun id => (s.credits id).id ≠ 0 ∧
            (s.credits id).producer = p)).filter
          (fun id => (s.credits id).status = CreditStatus.Active ∧
            (s.credits id).isRetired = false) := by
      rw [Finset.filter_filter]
      apply Finset.filter_congr
      intro x hx
      constructor
      · rintro ⟨h1, h2, h3, h4⟩
        exact ⟨⟨h1, h2⟩, h3, h4⟩
      · rintro ⟨⟨h1, h2⟩, h3, h4⟩
        exact ⟨h1, h2, h3, h4⟩
    rw [hsplit]
    simp only [Finset.sum_filter]
  · intro s' sender id toAddr hok
    obtain ⟨-, -, -, -, -, -, hs'⟩ := transferCredit_ok hok
    have hpc : s'.producerCredits = s.producerCredits := by rw [hs']
    have hfields : ∀ j, (s'.credits j).status = (s.credits j).status ∧
        (s'.credits j).isRetired = (s.credits j).isRetired ∧
        (s'.credits j).amount = (s.credits j).amount := by
      intro j
      rw [hs']
      show ((upd s.credits id _ j).status = _) ∧
        ((upd s.credits id _ j).isRetired = _) ∧
        ((upd s.credits id _ j).amount = _)
      by_cases hji : j = id
      · subst hji
        rw [upd_same]
        exact ⟨rfl, rfl, rfl⟩
      · rw [upd_ne _ _ _ hji]
        exact ⟨rfl, rfl, rfl⟩
    unfold getTotalCreditsByProducer
    rw [hpc, foldl_total s' _ 0, foldl_total s _ 0]
    have hfun : (fun id => if (s'.credits id).status = CreditStatus.Active ∧
          (s'.credits id).isRetired = false
        then (s'.credits id).amount else 0) =
        (fun id => if (s.credits id).status = CreditStatus.Active ∧
          (s.credits id).isRetired = false
        then (s.credits id).amount else 0) := by
      funext j
      obtain ⟨h1, h2, h3⟩ := hfields j
      rw [h1, h2, h3]
    rw [hfun]

/-- Witness for C7 at the concrete verified state: producer 4 has the
single active credit 1 of amount 1000. -/
theorem getTotalCreditsByProducer_correct_witness :
    getTotalCreditsByProducer sc3 4 =
      ∑ id in (Finset.range sc3.nextId).filter
        (fun id => (sc3.credits id).id ≠ 0 ∧ (sc3.credits id).producer = 4 ∧
          (sc3.credits id).status = CreditStatus.Active ∧
          (sc3.credits id).isRetired = false),
        (sc3.credits id).amount :=
  (getTotalCreditsByProducer_correct sc3 reach_sc3 4).1
